import Mathlib

/-!
# Water-drop height-field generator (`src/index.js`)

Shallow embedding of `WaterDropGenerator` and its local helper
`CalculateWavesAtPoint`.

* The embedding is generic in the number type `α` and its operations. Two
  instances are used: `Binary64`, the IEEE 754 doubles of JavaScript (every
  operation correctly rounded, with overflow, infinities, signed zeros and
  `NaN`), which is the arithmetic the code runs in; and `ℝ`, exact arithmetic
  without rounding or overflow, in which the formulas of the specification are
  read. A theorem that holds for every `α` holds in both.
* A value of the program is a `JSVal α`: a number `num a`, or `undefined` (array
  holes, reads past the end of an array), or `nan`, the `NaN` that arithmetic on
  `undefined` produces. In `JSVal Binary64` the `NaN` of JavaScript has two
  representations, `nan` and `num Binary64.nan` (from an invalid operation on
  numbers, such as `Infinity - Infinity`); both are absorbing.
* `Math.sqrt`, `Math.cos` and `Math.exp` are parameters of the embedding. Over
  `ℝ` the theorems instantiate them with `Real.sqrt`, `Real.cos`, `Real.exp`;
  over `Binary64` the theorems hold for all functions with the values the
  language fixes at zero (`sqrt(0) = 0`, `cos(0) = 1`, `exp(-0) = 1`).
* Array lengths follow `Array(n)`: a `RangeError` unless `0 ≤ n < 2^32`.
* A thrown exception is the `error` branch of `Except`.
* `WaterDropGeneratorStore` is the same body in store-passing style (argument
  arrays, `oscillators` and `result` as explicit state); it is proved equal to
  the functional embedding and carries the purity statement.
-/

namespace HeatmapGrid

/-- The JavaScript values that occur in the generator. -/
inductive JSVal (α : Type) where
  | undefined : JSVal α
  | nan : JSVal α
  | num (a : α) : JSVal α
  deriving DecidableEq, Repr

/-- The two exceptions the generator can raise: `RangeError` (invalid array
length) and `TypeError` (property write on `undefined`). -/
inductive JSError where
  | rangeError : JSError
  | typeError : JSError
  deriving DecidableEq, Repr

namespace JSVal

variable {α : Type}

/-- Binary numeric operator: both operands go through `ToNumber`, which maps
`undefined` to `NaN`; `NaN` is absorbing. On two numbers the result is that of
the operation `f` of the number type: exact in `ℝ`, rounded (and possibly
infinite or `Binary64.nan`) in `Binary64`. -/
def binop (f : α → α → α) : JSVal α → JSVal α → JSVal α
  | num a, num b => num (f a b)
  | _, _ => nan

/-- Unary numeric function (`Math.sqrt`, `Math.cos`, `Math.exp`, unary minus). -/
def unop (f : α → α) : JSVal α → JSVal α
  | num a => num (f a)
  | _ => nan

instance [Add α] : Add (JSVal α) := ⟨binop (· + ·)⟩
instance [Sub α] : Sub (JSVal α) := ⟨binop (· - ·)⟩
instance [Mul α] : Mul (JSVal α) := ⟨binop (· * ·)⟩
instance [Div α] : Div (JSVal α) := ⟨binop (· / ·)⟩
instance [Neg α] : Neg (JSVal α) := ⟨unop (- ·)⟩

end JSVal

open JSVal

variable {α : Type}

/-- A JavaScript array of values; a hole reads as `undefined`. -/
abbrev JSArray (α : Type) := List (JSVal α)

/-- The `result` array of arrays. -/
abbrev Grid (α : Type) := List (JSArray α)

/-- Read `xs[i]` from an input sequence of numbers: `undefined` past the end. -/
def arrayGet (xs : List α) (i : Nat) : JSVal α :=
  match xs[i]? with
  | some a => num a
  | none => undefined

/-- The call `Array(n)` for an integer `n`: `RangeError` ("Invalid array
length") unless `0 ≤ n < 2^32`, otherwise an array of `n` holes. -/
def newArray (n : Int) : Except JSError (JSArray α) :=
  if n < 0 ∨ 4294967296 ≤ n then Except.error JSError.rangeError
  else Except.ok (List.replicate n.toNat undefined)

/-- The assignment `a[i] = v` on an inner array: overwrite inside the current
length, otherwise grow the array (holes in between). -/
def arraySet (a : JSArray α) (i : Nat) (v : JSVal α) : JSArray α :=
  if i < a.length then a.set i v
  else a ++ List.replicate (i - a.length) undefined ++ [v]

/-- The assignment `result[col][row] = v`: `TypeError` when `result[col]` is
`undefined`, i.e. when `col` is not an index of the outer array. -/
def setCell (result : Grid α) (col row : Nat) (v : JSVal α) : Except JSError (Grid α) :=
  match result[col]? with
  | none => Except.error JSError.typeError
  | some inner => Except.ok (result.set col (arraySet inner row v))

/-- The record built for every drop (lines 63-69). -/
structure Oscillator (α : Type) where
  amplitude : JSVal α
  centerX : JSVal α
  centerZ : JSVal α
  gain : JSVal α
  offsetY : JSVal α

/-- The oscillator construction loop (lines 59-70): one record per index below
`amplitudes.length`, the positions read at the same index. -/
def buildOscillators [One α] [Zero α] (xPositionsNormalized zPositionsNormalized amplitudes : List α) :
    List (Oscillator α) :=
  (List.range amplitudes.length).map fun iOsc =>
    { amplitude := arrayGet amplitudes iOsc
      centerX := arrayGet xPositionsNormalized iOsc
      centerZ := arrayGet zPositionsNormalized iOsc
      gain := num 1
      offsetY := num 0 }

/-- The contribution added to `resultValue` for one oscillator (lines 50-54).
The argument of `Math.sqrt` is a sum of two squares, so the `NaN` that
`Math.sqrt` returns on a negative number does not arise from numbers. -/
def waveTerm [Add α] [Sub α] [Mul α] [Div α] [Neg α] [Zero α] [One α]
    [NatCast α] [IntCast α] (sqrt cos exp : α → α) (volatility : JSVal α) (x z : JSVal α)
    (oscillator : Oscillator α) : JSVal α :=
  let distX := x - oscillator.centerX
  let distZ := z - oscillator.centerZ
  let dist := unop sqrt (distX * distX + distZ * distZ)
  oscillator.gain * oscillator.amplitude * unop cos (dist * volatility) * unop exp (-dist * num 3)

/-- The local function `CalculateWavesAtPoint(x, z)` (lines 43-57); the
captured `oscillators` and `volatility` are explicit arguments. -/
def CalculateWavesAtPoint [Add α] [Sub α] [Mul α] [Div α] [Neg α] [Zero α] [One α]
    [NatCast α] [IntCast α] (sqrt cos exp : α → α) (oscillators : List (Oscillator α))
    (volatility : JSVal α) (x z : JSVal α) : JSVal α :=
  oscillators.foldl (fun resultValue oscillator =>
    resultValue + waveTerm sqrt cos exp volatility x z oscillator) (num 0)

/-- The allocation `Array.from(Array(sizeZ)).map(() => Array(sizeX))` (line 72):
`sizeZ` outer entries, each a fresh array of `sizeX` holes. -/
def allocResult (sizeX sizeZ : Int) : Except JSError (Grid α) := do
  let outer : JSArray α ← newArray sizeZ
  outer.mapM fun _ => newArray sizeX

/-- The inner loop (lines 80-82) for a fixed `row` and `z`. The first argument
is the number of iterations that remain; `col` and `x` are the loop variables. -/
def colLoop [Add α] [Sub α] [Mul α] [Div α] [Neg α] [Zero α] [One α]
    [NatCast α] [IntCast α] (sqrt cos exp : α → α) (oscillators : List (Oscillator α))
    (volatility offsetLevel stepX : JSVal α) (row : Nat) (z : JSVal α) :
    Nat → Nat → JSVal α → Grid α → Except JSError (Grid α)
  | 0, _, _, result => Except.ok result
  | n + 1, col, x, result => do
    let result ← setCell result col row
      (CalculateWavesAtPoint sqrt cos exp oscillators volatility x z + offsetLevel)
    colLoop sqrt cos exp oscillators volatility offsetLevel stepX row z n (col + 1) (x + stepX) result

/-- The outer loop (lines 79-83). The first argument is the number of
iterations that remain; `row` and `z` are the loop variables. -/
def rowLoop [Add α] [Sub α] [Mul α] [Div α] [Neg α] [Zero α] [One α]
    [NatCast α] [IntCast α] (sqrt cos exp : α → α) (oscillators : List (Oscillator α))
    (volatility offsetLevel stepX stepZ : JSVal α) (sizeX : Int) :
    Nat → Nat → JSVal α → Grid α → Except JSError (Grid α)
  | 0, _, _, result => Except.ok result
  | n + 1, row, z, result => do
    let result ← colLoop sqrt cos exp oscillators volatility offsetLevel stepX row z
      sizeX.toNat 0 (num 0) result
    rowLoop sqrt cos exp oscillators volatility offsetLevel stepX stepZ sizeX n (row + 1) (z + stepZ) result

/-- The function `WaterDropGenerator` (lines 26-85). `sizeX` and `sizeZ` are
integers; the three sequences are arrays of numbers; `offsetLevel` and
`volatility` are numbers. A loop
`for (i = 0; i < size; i++)` runs `size.toNat` times. When a size is `0` the
corresponding step is `1/0`, which JavaScript evaluates to `Infinity` and the
field `α` to `0`; that step is never added to anything, because the loop that
would add it runs no iteration. -/
def WaterDropGenerator [Add α] [Sub α] [Mul α] [Div α] [Neg α] [Zero α] [One α]
    [NatCast α] [IntCast α] (sqrt cos exp : α → α) (sizeX sizeZ : Int)
    (xPositionsNormalized zPositionsNormalized amplitudes : List α)
    (offsetLevel volatility : α) : Except JSError (Grid α) := do
  let oscillators := buildOscillators xPositionsNormalized zPositionsNormalized amplitudes
  let result ← allocResult sizeX sizeZ
  let dTotalX : JSVal α := num 1
  let dTotalZ : JSVal α := num 1
  let stepX := dTotalX / num (sizeX : α)
  let stepZ := dTotalZ / num (sizeZ : α)
  rowLoop sqrt cos exp oscillators (num volatility) (num offsetLevel) stepX stepZ sizeX
    sizeZ.toNat 0 (num 0) result

/-- Read `result[col][row]` from a returned grid: `undefined` for a hole, for a
position past the end of the inner array, and when there is no outer entry. -/
def cellAt (g : Grid α) (col row : Nat) : JSVal α :=
  match g[col]? with
  | none => undefined
  | some inner =>
    match inner[row]? with
    | some v => v
    | none => undefined

/-! ## Specification-side definitions -/

/-- The value of a loop coordinate (`x` or `z`) after `n` additions of `step`
to its initial value `0`. -/
def runningCoord [Add α] [Zero α] (step : JSVal α) : Nat → JSVal α
  | 0 => num 0
  | n + 1 => runningCoord step n + step

/-- An inner array of initial length `nX` whose first `k` positions have been
written with `val 0, ..., val (k - 1)`. -/
def colState (val : Nat → JSVal α) (nX k : Nat) : JSArray α :=
  (List.range k).map val ++ List.replicate (nX - k) undefined

/-- The grid while the fill loop is at `(row, col)`: rows below `row` are
written in the first `nX` outer entries, row `row` in the first `col`. -/
def gridState (val : Nat → Nat → JSVal α) (nX nZ row col : Nat) : Grid α :=
  (List.range nZ).map fun c =>
    colState (val c) nX (if c < col then row + 1 else if c < nX then row else 0)

/-- The grid returned when the fill loop completes (`nX ≤ nZ`): `nZ` outer
entries, the first `nX` hold the `nZ` computed values of their column, the
others keep their `nX` holes. -/
def filledGrid (val : Nat → Nat → JSVal α) (nX nZ : Nat) : Grid α :=
  (List.range nZ).map fun c =>
    if c < nX then (List.range nZ).map (val c) else List.replicate nX undefined

/-- The value the fill loop stores at `(col, row)`: the wave height at the
running coordinates plus the offset. -/
def cellValue [Add α] [Sub α] [Mul α] [Div α] [Neg α] [Zero α] [One α]
    [NatCast α] [IntCast α] (sqrt cos exp : α → α) (oscillators : List (Oscillator α))
    (volatility offsetLevel stepX stepZ : JSVal α) (col row : Nat) : JSVal α :=
  CalculateWavesAtPoint sqrt cos exp oscillators volatility
    (runningCoord stepX col) (runningCoord stepZ row) + offsetLevel

/-- The distance of the spec: from the sample point `(col / sizeX, row / sizeZ)`
to the centre `(cx, cz)` of a source. -/
def specDist [Field α] (sqrt : α → α) (sizeX sizeZ : Int) (cx cz : α) (col row : Nat) : α :=
  sqrt (((col : α) / (sizeX : α) - cx) ^ 2 + ((row : α) / (sizeZ : α) - cz) ^ 2)

/-- The contribution of source `i` to the cell `(col, row)` as the spec writes
it: `amplitude_i * cos (distance_i * volatility) * exp (-3 * distance_i)`. -/
def specTerm [Field α] (sqrt cos exp : α → α) (sizeX sizeZ : Int) (xs zs amps : List α)
    (volatility : α) (col row : Nat) (i : Nat) : α :=
  amps.getD i 0
    * cos (specDist sqrt sizeX sizeZ (xs.getD i 0) (zs.getD i 0) col row * volatility)
    * exp (-3 * specDist sqrt sizeX sizeZ (xs.getD i 0) (zs.getD i 0) col row)

/-- The cell value of the spec: the offset plus the sum of the contributions of
the sources `i < N`, where `N` is the common length of the three sequences. -/
def specCell [Field α] (sqrt cos exp : α → α) (sizeX sizeZ : Int) (xs zs amps : List α)
    (offsetLevel volatility : α) (col row : Nat) : α :=
  offsetLevel
    + ((List.range amps.length).map (specTerm sqrt cos exp sizeX sizeZ xs zs amps volatility col row)).sum

/-! ## Loop variables, and the call as a store transformer -/

/-- The successive values `(col, x)` of the loop variables of the inner loop
header `for (let col = 0, x = 0; col < sizeX; col++, x += stepX)` (line 80): the
first argument is the number of iterations that remain, as in `colLoop`. -/
def colLoopArgs [Add α] (stepX : JSVal α) : Nat → Nat → JSVal α → List (Nat × JSVal α)
  | 0, _, _ => []
  | n + 1, col, x => (col, x) :: colLoopArgs stepX n (col + 1) (x + stepX)

/-- The successive values `(row, z)` of the loop variables of the outer loop
header `for (let row = 0, z = 0; row < sizeZ; row++, z += stepZ)` (line 79). -/
def rowLoopArgs [Add α] (stepZ : JSVal α) : Nat → Nat → JSVal α → List (Nat × JSVal α)
  | 0, _, _ => []
  | n + 1, row, z => (row, z) :: rowLoopArgs stepZ n (row + 1) (z + stepZ)

/-- The sample coordinate of the spec for column `col`: `x = col * (1 / sizeX)`. -/
def specSampleX [Field α] (sizeX : Int) (col : Nat) : α := (col : α) * (1 / (sizeX : α))

/-- The sample coordinate of the spec for row `row`: `z = row * (1 / sizeZ)`. -/
def specSampleZ [Field α] (sizeZ : Int) (row : Nat) : α := (row : α) * (1 / (sizeZ : α))

/-- The arrays a call works on, as explicit state: the three argument arrays,
and the two arrays the call creates and fills (`oscillators`, `result`), which
hold whatever was there before until their declarations run. -/
structure Store (α : Type) where
  xPositionsNormalized : List α
  zPositionsNormalized : List α
  amplitudes : List α
  oscillators : List (Oscillator α)
  result : Grid α

/-- The assignment `oscillators[iOsc] = o`: overwrite inside the current length,
otherwise extend the array by `o` (in the construction loop `iOsc` is the
current length at every iteration, so no hole is ever left). -/
def oscSet (a : List (Oscillator α)) (iOsc : Nat) (o : Oscillator α) : List (Oscillator α) :=
  if iOsc < a.length then a.set iOsc o else a ++ [o]

/-- The record literal of lines 63-69, its fields read from the argument arrays
in the store at index `iOsc`. -/
def oscillatorAt [One α] [Zero α] (st : Store α) (iOsc : Nat) : Oscillator α :=
  { amplitude := arrayGet st.amplitudes iOsc
    centerX := arrayGet st.xPositionsNormalized iOsc
    centerZ := arrayGet st.zPositionsNormalized iOsc
    gain := num 1
    offsetY := num 0 }

/-- The oscillator construction loop (lines 62-70) as a store transformer; the
first argument is the number of iterations that remain. -/
def oscLoopStore [One α] [Zero α] : Nat → Nat → Store α → Store α
  | 0, _, st => st
  | n + 1, iOsc, st =>
    oscLoopStore n (iOsc + 1)
      { st with oscillators := oscSet st.oscillators iOsc (oscillatorAt st iOsc) }

/-- The inner loop (lines 80-82) as a store transformer: `CalculateWavesAtPoint`
reads `oscillators` from the store, the write goes to `result`. -/
def colLoopStore [Add α] [Sub α] [Mul α] [Div α] [Neg α] [Zero α] [One α]
    [NatCast α] [IntCast α] (sqrt cos exp : α → α) (volatility offsetLevel stepX : JSVal α)
    (row : Nat) (z : JSVal α) : Nat → Nat → JSVal α → Store α → Except JSError (Store α)
  | 0, _, _, st => Except.ok st
  | n + 1, col, x, st => do
    let result ← setCell st.result col row
      (CalculateWavesAtPoint sqrt cos exp st.oscillators volatility x z + offsetLevel)
    colLoopStore sqrt cos exp volatility offsetLevel stepX row z n (col + 1) (x + stepX)
      { st with result := result }

/-- The outer loop (lines 79-83) as a store transformer. -/
def rowLoopStore [Add α] [Sub α] [Mul α] [Div α] [Neg α] [Zero α] [One α]
    [NatCast α] [IntCast α] (sqrt cos exp : α → α) (volatility offsetLevel stepX stepZ : JSVal α)
    (sizeX : Int) : Nat → Nat → JSVal α → Store α → Except JSError (Store α)
  | 0, _, _, st => Except.ok st
  | n + 1, row, z, st => do
    let st ← colLoopStore sqrt cos exp volatility offsetLevel stepX row z sizeX.toNat 0 (num 0) st
    rowLoopStore sqrt cos exp volatility offsetLevel stepX stepZ sizeX n (row + 1) (z + stepZ) st

/-- The body of `WaterDropGenerator` (lines 59-84) as a store transformer: the
returned grid is the `result` field of the final store. -/
def WaterDropGeneratorStore [Add α] [Sub α] [Mul α] [Div α] [Neg α] [Zero α] [One α]
    [NatCast α] [IntCast α] (sqrt cos exp : α → α) (sizeX sizeZ : Int)
    (offsetLevel volatility : α) (st : Store α) : Except JSError (Store α) := do
  let iOscCount := st.amplitudes.length
  let st := { st with oscillators := [] }
  let st := oscLoopStore iOscCount 0 st
  let result ← allocResult sizeX sizeZ
  let st := { st with result := result }
  let stepX : JSVal α := num 1 / num (sizeX : α)
  let stepZ : JSVal α := num 1 / num (sizeZ : α)
  rowLoopStore sqrt cos exp (num volatility) (num offsetLevel) stepX stepZ sizeX
    sizeZ.toNat 0 (num 0) st

/-! ## The numbers of the code: IEEE 754 binary64

The program definitions above are generic in the number type and its
operations. `ℝ` gives the exact arithmetic of the spec's formulas; `Binary64`
gives the arithmetic JavaScript performs: every operation is the exact result
rounded to the nearest representable value, ties to even. -/

/-- The values of the IEEE 754 binary64 format, the `Number` type of JavaScript:
`NaN`, the two infinities, and the finite values `(-1)^neg * m * 2^e` in
canonical form (`m < 2^53`, `-1074 ≤ e ≤ 971`, and `2^52 ≤ m` unless
`e = -1074`; the two zeros are `fin neg 0 0`). -/
inductive Binary64 where
  | nan : Binary64
  | inf (neg : Bool) : Binary64
  | fin (neg : Bool) (m : Nat) (e : Int) : Binary64
  deriving DecidableEq, Repr

namespace Binary64

/-- The position of the leading bit of `n`: `⌊log₂ n⌋` for `n ≥ 1`, and `0` for
`n = 0`; the first argument bounds the number of halvings (`n` itself is
enough). -/
def leadingBit : Nat → Nat → Nat
  | 0, _ => 0
  | fuel + 1, n => if n ≤ 1 then 0 else leadingBit fuel (n / 2) + 1

/-- Round the non-negative rational `n / d` (`d > 0`) to the nearest binary64
value, ties to even, and give it the sign `neg`; overflow gives an infinity. -/
def round (neg : Bool) (n d : Nat) : Binary64 :=
  if n = 0 then fin neg 0 0
  else
    let e0 : Int := (leadingBit n n : Int) - (leadingBit d d : Int)
    let e : Int := if d * 2 ^ e0.toNat ≤ n * 2 ^ (-e0).toNat then e0 else e0 - 1
    let u : Int := max (e - 52) (-1074)
    let N := n * 2 ^ (-u).toNat
    let D := d * 2 ^ u.toNat
    let q := N / D
    let r := N % D
    let m := if 2 * r < D then q else if D < 2 * r then q + 1 else if q % 2 = 0 then q else q + 1
    if m = 0 then fin neg 0 0
    else if m = 2 ^ 53 then (if 971 < u + 1 then inf neg else fin neg (2 ^ 52) (u + 1))
    else if 971 < u then inf neg
    else fin neg m u

/-- Unary minus: flips the sign, also of a zero and of an infinity. -/
def neg : Binary64 → Binary64
  | nan => nan
  | inf s => inf (!s)
  | fin s m e => fin (!s) m e

/-- Addition, correctly rounded. -/
def add : Binary64 → Binary64 → Binary64
  | nan, _ => nan
  | _, nan => nan
  | inf s, inf t => if s = t then inf s else nan
  | inf s, fin _ _ _ => inf s
  | fin _ _ _, inf t => inf t
  | fin s m e, fin t k f =>
    let g : Int := min e f
    let a : Int := (if s then -1 else 1) * ((m * 2 ^ (e - g).toNat : Nat) : Int)
    let b : Int := (if t then -1 else 1) * ((k * 2 ^ (f - g).toNat : Nat) : Int)
    let c : Int := a + b
    if c = 0 then fin (s && t) 0 0
    else round (decide (c < 0)) (c.natAbs * 2 ^ g.toNat) (2 ^ (-g).toNat)

/-- Multiplication, correctly rounded. -/
def mul : Binary64 → Binary64 → Binary64
  | nan, _ => nan
  | _, nan => nan
  | inf s, inf t => inf (xor s t)
  | inf s, fin t k _ => if k = 0 then nan else inf (xor s t)
  | fin s m _, inf t => if m = 0 then nan else inf (xor s t)
  | fin s m e, fin t k f =>
    round (xor s t) (m * k * 2 ^ (e + f).toNat) (2 ^ (-(e + f)).toNat)

/-- Division, correctly rounded. -/
def div : Binary64 → Binary64 → Binary64
  | nan, _ => nan
  | _, nan => nan
  | inf _, inf _ => nan
  | inf s, fin t _ _ => inf (xor s t)
  | fin s _ _, inf t => fin (xor s t) 0 0
  | fin s m e, fin t k f =>
    if k = 0 then (if m = 0 then nan else inf (xor s t))
    else round (xor s t) (m * 2 ^ (e - f).toNat) (k * 2 ^ (f - e).toNat)

/-- The binary64 value of an integer. -/
def ofInt (i : Int) : Binary64 := round (decide (i < 0)) i.natAbs 1

instance : Add Binary64 := ⟨add⟩
instance : Sub Binary64 := ⟨fun a b => add a (neg b)⟩
instance : Mul Binary64 := ⟨mul⟩
instance : Div Binary64 := ⟨div⟩
instance : Neg Binary64 := ⟨neg⟩
instance : NatCast Binary64 := ⟨fun n => round false n 1⟩
instance : IntCast Binary64 := ⟨ofInt⟩
instance : Zero Binary64 := ⟨fin false 0 0⟩
instance : One Binary64 := ⟨fin false (2 ^ 52) (-52)⟩
instance : OfScientific Binary64 :=
  ⟨fun m s e => if s then round false m (10 ^ e) else round false (m * 10 ^ e) 1⟩

end Binary64

/-- The comparison `a < b` of JavaScript on numbers: `false` when an operand is
`NaN`; the two zeros are equal. -/
def Binary64.lt : Binary64 → Binary64 → Bool
  | Binary64.nan, _ => false
  | _, Binary64.nan => false
  | Binary64.inf s, Binary64.inf t => s && !t
  | Binary64.inf s, Binary64.fin _ _ _ => s
  | Binary64.fin _ _ _, Binary64.inf t => !t
  | Binary64.fin s m e, Binary64.fin t k f =>
    let g : Int := min e f
    let a : Int := (if s then -1 else 1) * ((m * 2 ^ (e - g).toNat : Nat) : Int)
    let b : Int := (if t then -1 else 1) * ((k * 2 ^ (f - g).toNat : Nat) : Int)
    decide (a < b)

/-! ## Array and loop lemmas -/

theorem mapM_replicate_ok {β γ : Type} (b : γ) (a : β) (n : Nat) :
    (List.replicate n a).mapM (fun _ => (Except.ok b : Except JSError γ))
      = Except.ok (List.replicate n b) := by
  induction n with
  | zero => rfl
  | succ n ih =>
    simp only [List.replicate_succ, List.mapM_cons, ih]
    rfl

theorem allocResult_nonneg (sizeX sizeZ : Int) (hX : 0 ≤ sizeX) (hZ : 0 ≤ sizeZ)
    (hX2 : sizeX < 4294967296) (hZ2 : sizeZ < 4294967296) :
    (allocResult sizeX sizeZ : Except JSError (Grid α))
      = Except.ok (List.replicate sizeZ.toNat (List.replicate sizeX.toNat undefined)) := by
  unfold allocResult newArray
  rw [if_neg (by omega), if_neg (by omega)]
  exact mapM_replicate_ok _ _ _

theorem colState_length (val : Nat → JSVal α) (nX k : Nat) :
    (colState val nX k).length = max nX k := by
  simp [colState]; omega

theorem arraySet_colState (val : Nat → JSVal α) (nX k : Nat) :
    arraySet (colState val nX k) k (val k) = colState val nX (k + 1) := by
  unfold arraySet
  rw [colState_length]
  by_cases h : k < nX
  · have h1 : k < max nX k := by omega
    rw [if_pos h1]
    unfold colState
    obtain ⟨m, hm⟩ : ∃ m, nX - k = m + 1 := ⟨nX - k - 1, by omega⟩
    have hm2 : nX - (k + 1) = m := by omega
    rw [hm, hm2, List.range_succ, List.map_append, List.replicate_succ]
    have hl : ((List.range k).map val).length = k := by simp
    rw [List.set_append_right _ _ (by simp)]
    simp
  · have h1 : ¬ k < max nX k := by omega
    rw [if_neg h1]
    unfold colState
    have e1 : nX - k = 0 := by omega
    have e2 : nX - (k + 1) = 0 := by omega
    have e3 : k - max nX k = 0 := by omega
    rw [e1, e2, e3, List.range_succ]
    simp

theorem setCell_gridState (val : Nat → Nat → JSVal α) (nX nZ row col : Nat)
    (hX : col < nX) (hZ : col < nZ) :
    setCell (gridState val nX nZ row col) col row (val col row)
      = Except.ok (gridState val nX nZ row (col + 1)) := by
  have hget : (gridState val nX nZ row col)[col]? = some (colState (val col) nX row) := by
    simp [gridState, List.getElem?_map, List.getElem?_range hZ, hX]
  unfold setCell
  rw [hget]
  simp only [arraySet_colState]
  congr 1
  apply List.ext_getElem?
  intro c
  rw [List.getElem?_set]
  by_cases hc : col = c
  · subst hc
    simp [gridState, hZ]
  · rw [if_neg hc]
    by_cases hcz : c < nZ
    · simp only [gridState, List.getElem?_map, List.getElem?_range hcz, Option.map_some']
      have : (c < col + 1) = (c < col) := by
        apply propext; constructor <;> intro h <;> omega
      simp only [this]
    · have hn : (List.range nZ)[c]? = none := by
        apply List.getElem?_eq_none
        simp only [List.length_range]
        omega
      simp only [gridState, List.getElem?_map, hn, Option.map_none']

theorem setCell_length (g : Grid α) (col row : Nat) (v : JSVal α) (g2 : Grid α)
    (h : setCell g col row v = Except.ok g2) : g2.length = g.length := by
  unfold setCell at h
  cases hg : g[col]? with
  | none => rw [hg] at h; cases h
  | some inner =>
    rw [hg] at h
    simp only [Except.ok.injEq] at h
    rw [← h, List.length_set]

theorem setCell_out_of_range (g : Grid α) (col row : Nat) (v : JSVal α)
    (h : g.length ≤ col) : setCell g col row v = Except.error JSError.typeError := by
  unfold setCell
  rw [List.getElem?_eq_none h]

theorem setCell_in_range (g : Grid α) (col row : Nat) (v : JSVal α)
    (h : col < g.length) : ∃ g2, setCell g col row v = Except.ok g2 ∧ g2.length = g.length := by
  unfold setCell
  rw [List.getElem?_eq_getElem h]
  exact ⟨_, rfl, by simp⟩

theorem gridState_next_row (val : Nat → Nat → JSVal α) (nX nZ row : Nat) :
    gridState val nX nZ row nX = gridState val nX nZ (row + 1) 0 := by
  unfold gridState
  apply List.map_congr_left
  intro c _
  by_cases h : c < nX <;> simp [h]

section loops
variable [Add α] [Sub α] [Mul α] [Div α] [Neg α] [Zero α] [One α]
    [NatCast α] [IntCast α] (sqrt cos exp : α → α) (oscillators : List (Oscillator α))
  (volatility offsetLevel stepX stepZ : JSVal α)

theorem colLoop_gridState (nX nZ row : Nat) (hXZ : nX ≤ nZ) :
    ∀ (n col : Nat), col + n = nX →
      colLoop sqrt cos exp oscillators volatility offsetLevel stepX row (runningCoord stepZ row)
        n col (runningCoord stepX col)
        (gridState (cellValue sqrt cos exp oscillators volatility offsetLevel stepX stepZ) nX nZ row col)
      = Except.ok
        (gridState (cellValue sqrt cos exp oscillators volatility offsetLevel stepX stepZ) nX nZ row nX) := by
  intro n
  induction n with
  | zero =>
    intro col h
    have : col = nX := by omega
    subst this
    rfl
  | succ n ih =>
    intro col h
    have h1 : col < nX := by omega
    have h2 : col < nZ := by omega
    have hs := setCell_gridState
      (cellValue sqrt cos exp oscillators volatility offsetLevel stepX stepZ) nX nZ row col h1 h2
    unfold colLoop
    have hv : CalculateWavesAtPoint sqrt cos exp oscillators volatility (runningCoord stepX col)
        (runningCoord stepZ row) + offsetLevel
        = cellValue sqrt cos exp oscillators volatility offsetLevel stepX stepZ col row := rfl
    rw [hv, hs]
    exact ih (col + 1) (by omega)

theorem rowLoop_gridState (sizeX : Int) (nZ : Nat) (hXZ : sizeX.toNat ≤ nZ) :
    ∀ (n row : Nat),
      rowLoop sqrt cos exp oscillators volatility offsetLevel stepX stepZ sizeX
        n row (runningCoord stepZ row)
        (gridState (cellValue sqrt cos exp oscillators volatility offsetLevel stepX stepZ)
          sizeX.toNat nZ row 0)
      = Except.ok
        (gridState (cellValue sqrt cos exp oscillators volatility offsetLevel stepX stepZ)
          sizeX.toNat nZ (row + n) 0) := by
  intro n
  induction n with
  | zero => intro row; rfl
  | succ n ih =>
    intro row
    unfold rowLoop
    have hc := colLoop_gridState sqrt cos exp oscillators volatility offsetLevel stepX stepZ
      sizeX.toNat nZ row hXZ sizeX.toNat 0 (by omega)
    have h0 : (runningCoord stepX 0 : JSVal α) = num 0 := rfl
    rw [h0] at hc
    rw [hc, gridState_next_row]
    have := ih (row + 1)
    rw [show row + (n + 1) = row + 1 + n by omega]
    exact this

end loops

theorem gridState_initial (val : Nat → Nat → JSVal α) (nX nZ : Nat) :
    gridState val nX nZ 0 0 = List.replicate nZ (List.replicate nX undefined) := by
  apply List.ext_getElem?
  intro c
  by_cases hc : c < nZ
  · simp [gridState, colState, List.getElem?_replicate, hc]
  · have hn : (List.range nZ)[c]? = none := by
      apply List.getElem?_eq_none
      simp only [List.length_range]
      omega
    simp [gridState, List.getElem?_replicate, hc, hn]

theorem gridState_final (val : Nat → Nat → JSVal α) (nX nZ : Nat) (hXZ : nX ≤ nZ) :
    gridState val nX nZ nZ 0 = filledGrid val nX nZ := by
  unfold gridState filledGrid
  apply List.map_congr_left
  intro c _
  by_cases h : c < nX
  · have e : nX - nZ = 0 := by omega
    simp [h, colState, e]
  · simp [h, colState]

theorem WaterDropGenerator_ok [Add α] [Sub α] [Mul α] [Div α] [Neg α] [Zero α] [One α]
    [NatCast α] [IntCast α] (sqrt cos exp : α → α) (sizeX sizeZ : Int)
    (xs zs amps : List α) (offsetLevel volatility : α) (hX : 0 ≤ sizeX) (hXZ : sizeX ≤ sizeZ)
    (hZ2 : sizeZ < 4294967296) :
    WaterDropGenerator sqrt cos exp sizeX sizeZ xs zs amps offsetLevel volatility
      = Except.ok (filledGrid
          (cellValue sqrt cos exp (buildOscillators xs zs amps) (num volatility) (num offsetLevel)
            (num 1 / num (sizeX : α)) (num 1 / num (sizeZ : α)))
          sizeX.toNat sizeZ.toNat) := by
  unfold WaterDropGenerator
  rw [allocResult_nonneg sizeX sizeZ hX (le_trans hX hXZ) (by omega) hZ2]
  have hle : sizeX.toNat ≤ sizeZ.toNat := Int.toNat_le_toNat hXZ
  have h := rowLoop_gridState sqrt cos exp (buildOscillators xs zs amps) (num volatility)
    (num offsetLevel) (num 1 / num (sizeX : α)) (num 1 / num (sizeZ : α)) sizeX sizeZ.toNat hle
    sizeZ.toNat 0
  rw [gridState_initial, Nat.zero_add, gridState_final _ _ _ hle] at h
  exact h

theorem cellAt_filledGrid (val : Nat → Nat → JSVal α) (nX nZ col row : Nat)
    (hc : col < nX) (hXZ : nX ≤ nZ) (hr : row < nZ) :
    cellAt (filledGrid val nX nZ) col row = val col row := by
  have hcz : col < nZ := by omega
  simp [cellAt, filledGrid, List.getElem?_map, List.getElem?_range hcz, hc, List.getElem?_range hr]

/-! ## The closed form of a cell -/

theorem num_add [Add α] (a b : α) : (num a + num b : JSVal α) = num (a + b) := rfl

theorem runningCoord_eq [Field α] (s : α) (n : Nat) :
    runningCoord (num 1 / num s) n = num ((n : α) * (1 / s)) := by
  induction n with
  | zero => simp [runningCoord]
  | succ n ih =>
    have hd : (num 1 / num s : JSVal α) = num (1 / s) := rfl
    rw [runningCoord, ih, hd, num_add]
    congr 1
    push_cast
    ring

theorem arrayGet_of_lt (xs : List α) (i : Nat) (d : α) (h : i < xs.length) :
    arrayGet xs i = num (xs.getD i d) := by
  simp [arrayGet, List.getD, List.getElem?_eq_getElem h]

theorem arrayGet_of_le (xs : List α) (i : Nat) (h : xs.length ≤ i) :
    arrayGet xs i = undefined := by
  simp [arrayGet, List.getElem?_eq_none h]

theorem foldl_waveTerm [Field α] (sqrt cos exp : α → α) (volatility x z : JSVal α)
    (t : Oscillator α → α) (os : List (Oscillator α))
    (h : ∀ o ∈ os, waveTerm sqrt cos exp volatility x z o = num (t o)) (a : α) :
    os.foldl (fun resultValue oscillator =>
      resultValue + waveTerm sqrt cos exp volatility x z oscillator) (num a)
      = num (a + (os.map t).sum) := by
  induction os generalizing a with
  | nil => simp
  | cons o os ih =>
    rw [List.foldl_cons, h o (List.mem_cons_self _ _), num_add,
      ih (fun o2 h2 => h o2 (List.mem_cons_of_mem _ h2))]
    simp [add_assoc]

theorem waveTerm_num [Field α] (sqrt cos exp : α → α) (v x z a cx cz : α) (off : JSVal α) :
    waveTerm sqrt cos exp (num v) (num x) (num z)
      { amplitude := num a, centerX := num cx, centerZ := num cz, gain := num 1, offsetY := off }
    = num (1 * a * cos (sqrt ((x - cx) * (x - cx) + (z - cz) * (z - cz)) * v)
        * exp (-sqrt ((x - cx) * (x - cx) + (z - cz) * (z - cz)) * 3)) := rfl

theorem cellValue_eq_specCell [Field α] (sqrt cos exp : α → α) (sizeX sizeZ : Int)
    (xs zs amps : List α) (offsetLevel volatility : α) (col row : Nat)
    (hx : xs.length = amps.length) (hz : zs.length = amps.length) :
    cellValue sqrt cos exp (buildOscillators xs zs amps) (num volatility) (num offsetLevel)
        (num 1 / num (sizeX : α)) (num 1 / num (sizeZ : α)) col row
      = num (specCell sqrt cos exp sizeX sizeZ xs zs amps offsetLevel volatility col row) := by
  unfold cellValue CalculateWavesAtPoint
  rw [runningCoord_eq, runningCoord_eq]
  rw [foldl_waveTerm sqrt cos exp (num volatility) _ _
    (fun o => match o.amplitude, o.centerX, o.centerZ with
      | num a, num cx, num cz =>
        1 * a * cos (sqrt (((col : α) * (1 / (sizeX : α)) - cx) * ((col : α) * (1 / (sizeX : α)) - cx)
              + ((row : α) * (1 / (sizeZ : α)) - cz) * ((row : α) * (1 / (sizeZ : α)) - cz)) * volatility)
          * exp (-sqrt (((col : α) * (1 / (sizeX : α)) - cx) * ((col : α) * (1 / (sizeX : α)) - cx)
              + ((row : α) * (1 / (sizeZ : α)) - cz) * ((row : α) * (1 / (sizeZ : α)) - cz)) * 3)
      | _, _, _ => 0)]
  · rw [num_add]
    congr 1
    unfold specCell
    rw [zero_add, add_comm]
    congr 1
    unfold buildOscillators
    rw [List.map_map]
    congr 1
    apply List.map_congr_left
    intro i hi
    have hi2 : i < amps.length := List.mem_range.mp hi
    simp only [Function.comp, arrayGet_of_lt amps i 0 hi2, arrayGet_of_lt xs i 0 (hx ▸ hi2),
      arrayGet_of_lt zs i 0 (hz ▸ hi2), specTerm, specDist]
    have e1 : ∀ c : α, ((col : α) * (1 / (sizeX : α)) - c) * ((col : α) * (1 / (sizeX : α)) - c)
        = ((col : α) / (sizeX : α) - c) ^ 2 := by intro c; ring
    have e2 : ∀ c : α, ((row : α) * (1 / (sizeZ : α)) - c) * ((row : α) * (1 / (sizeZ : α)) - c)
        = ((row : α) / (sizeZ : α) - c) ^ 2 := by intro c; ring
    rw [e1, e2, one_mul, neg_mul, neg_mul, mul_comm (sqrt _) 3]
  · intro o ho
    unfold buildOscillators at ho
    obtain ⟨i, hi, rfl⟩ := List.mem_map.mp ho
    have hi2 : i < amps.length := List.mem_range.mp hi
    simp only [arrayGet_of_lt amps i 0 hi2, arrayGet_of_lt xs i 0 (hx ▸ hi2),
      arrayGet_of_lt zs i 0 (hz ▸ hi2)]
    rfl

/-! ## Calls that raise, and degenerate sizes -/

theorem colLoop_typeError [Add α] [Sub α] [Mul α] [Div α] [Neg α] [Zero α] [One α]
    [NatCast α] [IntCast α] (sqrt cos exp : α → α) (oscillators : List (Oscillator α))
    (volatility offsetLevel stepX : JSVal α) (row : Nat) (z : JSVal α) :
    ∀ (n col : Nat) (x : JSVal α) (g : Grid α), col ≤ g.length → g.length < col + n →
      colLoop sqrt cos exp oscillators volatility offsetLevel stepX row z n col x g
        = Except.error JSError.typeError := by
  intro n
  induction n with
  | zero => intro col x g h1 h2; omega
  | succ n ih =>
    intro col x g h1 h2
    unfold colLoop
    by_cases hc : col < g.length
    · obtain ⟨g2, hg2, hlen⟩ := setCell_in_range g col row
        (CalculateWavesAtPoint sqrt cos exp oscillators volatility x z + offsetLevel) hc
      rw [hg2]
      exact ih (col + 1) _ g2 (by omega) (by omega)
    · rw [setCell_out_of_range g col row _ (by omega)]
      rfl

theorem WaterDropGenerator_typeError [Add α] [Sub α] [Mul α] [Div α] [Neg α] [Zero α] [One α]
    [NatCast α] [IntCast α] (sqrt cos exp : α → α) (sizeX sizeZ : Int)
    (xs zs amps : List α) (offsetLevel volatility : α) (hZ : 1 ≤ sizeZ) (hXZ : sizeZ < sizeX)
    (hX2 : sizeX < 4294967296) :
    WaterDropGenerator sqrt cos exp sizeX sizeZ xs zs amps offsetLevel volatility
      = Except.error JSError.typeError := by
  unfold WaterDropGenerator
  rw [allocResult_nonneg sizeX sizeZ (by omega) (by omega) hX2 (by omega)]
  obtain ⟨n, hn⟩ : ∃ n, sizeZ.toNat = n + 1 := ⟨sizeZ.toNat - 1, by omega⟩
  simp only [hn]
  show rowLoop _ _ _ _ _ _ _ _ _ (n + 1) 0 _ _ = _
  unfold rowLoop
  rw [colLoop_typeError]
  · rfl
  · exact Nat.zero_le _
  · simp only [List.length_replicate]
    omega

theorem WaterDropGenerator_rangeError [Add α] [Sub α] [Mul α] [Div α] [Neg α] [Zero α] [One α]
    [NatCast α] [IntCast α] (sqrt cos exp : α → α) (sizeX sizeZ : Int)
    (xs zs amps : List α) (offsetLevel volatility : α)
    (h : (sizeZ < 0 ∨ 4294967296 ≤ sizeZ) ∨ ((sizeX < 0 ∨ 4294967296 ≤ sizeX) ∧ 1 ≤ sizeZ)) :
    WaterDropGenerator sqrt cos exp sizeX sizeZ xs zs amps offsetLevel volatility
      = Except.error JSError.rangeError := by
  unfold WaterDropGenerator allocResult newArray
  by_cases hz : sizeZ < 0 ∨ 4294967296 ≤ sizeZ
  · rw [if_pos hz]; rfl
  · have hx : (sizeX < 0 ∨ 4294967296 ≤ sizeX) ∧ 1 ≤ sizeZ := h.resolve_left hz
    rw [if_neg hz, if_pos hx.1]
    obtain ⟨n, hn⟩ : ∃ n, sizeZ.toNat = n + 1 := ⟨sizeZ.toNat - 1, by omega⟩
    rw [hn]
    rfl

theorem WaterDropGenerator_zero_rows [Add α] [Sub α] [Mul α] [Div α] [Neg α] [Zero α] [One α]
    [NatCast α] [IntCast α] (sqrt cos exp : α → α) (sizeX : Int)
    (xs zs amps : List α) (offsetLevel volatility : α) :
    WaterDropGenerator sqrt cos exp sizeX 0 xs zs amps offsetLevel volatility = Except.ok [] := by
  rfl

theorem filledGrid_zero_cols (val : Nat → Nat → JSVal α) (nZ : Nat) :
    filledGrid val 0 nZ = List.replicate nZ [] := by
  apply List.ext_getElem?
  intro c
  by_cases hc : c < nZ
  · simp [filledGrid, List.getElem?_replicate, hc]
  · have hn : (List.range nZ)[c]? = none := by
      apply List.getElem?_eq_none
      simp only [List.length_range]
      omega
    simp [filledGrid, List.getElem?_replicate, hc, hn]

/-! ## Further lemmas: returned cells, `NaN`, one source -/

theorem WaterDropGenerator_cells [Field α] (sqrt cos exp : α → α) (sizeX sizeZ : Int)
    (xs zs amps : List α) (offsetLevel volatility : α) (hX : 0 ≤ sizeX) (hXZ : sizeX ≤ sizeZ)
    (hZ2 : sizeZ < 4294967296)
    (hx : xs.length = amps.length) (hz : zs.length = amps.length) :
    ∃ g, WaterDropGenerator sqrt cos exp sizeX sizeZ xs zs amps offsetLevel volatility = Except.ok g
      ∧ g.length = sizeZ.toNat
      ∧ ∀ col row, col < sizeX.toNat → row < sizeZ.toNat →
          cellAt g col row
            = num (specCell sqrt cos exp sizeX sizeZ xs zs amps offsetLevel volatility col row) := by
  refine ⟨_, WaterDropGenerator_ok sqrt cos exp sizeX sizeZ xs zs amps offsetLevel volatility hX hXZ
    hZ2, by simp [filledGrid], ?_⟩
  intro col row hc hr
  rw [cellAt_filledGrid _ _ _ _ _ hc (Int.toNat_le_toNat hXZ) hr]
  exact cellValue_eq_specCell sqrt cos exp sizeX sizeZ xs zs amps offsetLevel volatility col row hx hz

theorem WaterDropGenerator_single_cell [Add α] [Sub α] [Mul α] [Div α] [Neg α] [Zero α] [One α]
    [NatCast α] [IntCast α] (sqrt cos exp : α → α)
    (xs zs amps : List α) (offsetLevel volatility : α) :
    WaterDropGenerator sqrt cos exp 1 1 xs zs amps offsetLevel volatility
      = Except.ok [[CalculateWavesAtPoint sqrt cos exp (buildOscillators xs zs amps)
          (num volatility) (num 0) (num 0) + num offsetLevel]] := rfl

theorem filledGrid_length (val : Nat → Nat → JSVal α) (nX nZ : Nat) :
    (filledGrid val nX nZ).length = nZ := by
  simp [filledGrid]

theorem filledGrid_getElem? (val : Nat → Nat → JSVal α) (nX nZ c : Nat) :
    (filledGrid val nX nZ)[c]?
      = if c < nZ then
          some (if c < nX then (List.range nZ).map (val c) else List.replicate nX undefined)
        else none := by
  by_cases hc : c < nZ
  · simp [filledGrid, List.getElem?_map, List.getElem?_range hc, hc]
  · have hn : (List.range nZ)[c]? = none := by
      apply List.getElem?_eq_none
      simp only [List.length_range]
      omega
    simp [filledGrid, List.getElem?_map, hn, hc]

theorem filledGrid_inner_length (val val2 : Nat → Nat → JSVal α) (nX nZ c : Nat) :
    ((filledGrid val nX nZ)[c]?).map List.length = ((filledGrid val2 nX nZ)[c]?).map List.length := by
  rw [filledGrid_getElem?, filledGrid_getElem?]
  by_cases hc : c < nZ <;> by_cases hx : c < nX <;> simp [hc, hx]

theorem cellAt_filledGrid_outside (val : Nat → Nat → JSVal α) (nX nZ col row : Nat)
    (h : ¬ (col < nX ∧ row < nZ)) :
    cellAt (filledGrid val nX nZ) col row = undefined := by
  unfold cellAt
  rw [filledGrid_getElem?]
  by_cases hc : col < nZ
  · rw [if_pos hc]
    by_cases hx : col < nX
    · have hr : ¬ row < nZ := fun hr => h ⟨hx, hr⟩
      have hn : (List.map (val col) (List.range nZ))[row]? = none := by
        apply List.getElem?_eq_none
        simp only [List.length_map, List.length_range]
        omega
      simp only [if_pos hx, hn]
    · simp only [if_neg hx]
      cases hrow : (List.replicate nX (undefined : JSVal α))[row]? with
      | none => rfl
      | some v =>
        rw [List.getElem?_replicate] at hrow
        split at hrow
        · cases hrow; rfl
        · cases hrow
  · rw [if_neg hc]

theorem specCell_shift [Field α] (sqrt cos exp : α → α) (sizeX sizeZ : Int) (xs zs amps : List α)
    (o1 o2 volatility : α) (col row : Nat) :
    specCell sqrt cos exp sizeX sizeZ xs zs amps o2 volatility col row
      = specCell sqrt cos exp sizeX sizeZ xs zs amps o1 volatility col row + (o2 - o1) := by
  unfold specCell
  ring

theorem nan_add [Add α] (b : JSVal α) : (nan + b : JSVal α) = nan := by
  cases b <;> rfl

theorem add_nan [Add α] (a : JSVal α) : (a + nan : JSVal α) = nan := by
  cases a <;> rfl

theorem foldl_from_nan [Add α] [Sub α] [Mul α] [Div α] [Neg α] [Zero α] [One α]
    [NatCast α] [IntCast α] (sqrt cos exp : α → α) (volatility x z : JSVal α)
    (os : List (Oscillator α)) :
    os.foldl (fun resultValue oscillator =>
      resultValue + waveTerm sqrt cos exp volatility x z oscillator) nan = nan := by
  induction os with
  | nil => rfl
  | cons o os ih => rw [List.foldl_cons, nan_add, ih]

theorem foldl_nan_term [Add α] [Sub α] [Mul α] [Div α] [Neg α] [Zero α] [One α]
    [NatCast α] [IntCast α] (sqrt cos exp : α → α) (volatility x z : JSVal α)
    (os : List (Oscillator α)) (o : Oscillator α) (ho : o ∈ os)
    (hnan : waveTerm sqrt cos exp volatility x z o = nan) (a : JSVal α) :
    os.foldl (fun resultValue oscillator =>
      resultValue + waveTerm sqrt cos exp volatility x z oscillator) a = nan := by
  induction os generalizing a with
  | nil => cases ho
  | cons o2 os ih =>
    rw [List.foldl_cons]
    rcases List.mem_cons.mp ho with h | h
    · subst h
      rw [hnan, add_nan]
      exact foldl_from_nan sqrt cos exp volatility x z os
    · exact ih h _

theorem waveTerm_undefined_centre [Add α] [Sub α] [Mul α] [Div α] [Neg α] [Zero α] [One α]
    [NatCast α] [IntCast α] (sqrt cos exp : α → α) (volatility x z : JSVal α)
    (o : Oscillator α) (h : o.centerX = undefined ∨ o.centerZ = undefined) :
    waveTerm sqrt cos exp volatility x z o = nan := by
  obtain ⟨amplitude, centerX, centerZ, gain, offsetY⟩ := o
  simp only at h
  rcases h with h | h <;> subst h <;>
    cases x <;> cases z <;> cases volatility <;> cases amplitude <;> cases gain <;>
      first | rfl | (cases centerX <;> rfl)

theorem buildOscillators_take [Add α] [Sub α] [Mul α] [Div α] [Neg α] [Zero α] [One α]
    [NatCast α] [IntCast α] (xs zs amps : List α) :
    buildOscillators (xs.take amps.length) (zs.take amps.length) amps = buildOscillators xs zs amps := by
  unfold buildOscillators
  apply List.map_congr_left
  intro i hi
  have hi2 : i < amps.length := List.mem_range.mp hi
  simp only [arrayGet, List.getElem?_take_of_lt hi2]

theorem cellValue_nan_of_short_positions [Add α] [Sub α] [Mul α] [Div α] [Neg α] [Zero α] [One α]
    [NatCast α] [IntCast α] (sqrt cos exp : α → α)
    (xs zs amps : List α) (volatility offsetLevel stepX stepZ : JSVal α) (col row : Nat)
    (h : xs.length < amps.length ∨ zs.length < amps.length) :
    cellValue sqrt cos exp (buildOscillators xs zs amps) volatility offsetLevel stepX stepZ col row
      = nan := by
  unfold cellValue CalculateWavesAtPoint
  have key : ∃ o ∈ buildOscillators xs zs amps, o.centerX = undefined ∨ o.centerZ = undefined := by
    rcases h with h | h
    · exact ⟨_, List.mem_map.mpr ⟨xs.length, List.mem_range.mpr h, rfl⟩,
        Or.inl (arrayGet_of_le xs xs.length (le_refl _))⟩
    · exact ⟨_, List.mem_map.mpr ⟨zs.length, List.mem_range.mpr h, rfl⟩,
        Or.inr (arrayGet_of_le zs zs.length (le_refl _))⟩
  obtain ⟨o, ho, hu⟩ := key
  rw [foldl_nan_term sqrt cos exp _ _ _ _ o ho (waveTerm_undefined_centre sqrt cos exp _ _ _ o hu),
    nan_add]

theorem specCell_single [Field α] (sqrt cos exp : α → α) (sizeX sizeZ : Int) (cx cz A o v : α)
    (col row : Nat) :
    specCell sqrt cos exp sizeX sizeZ [cx] [cz] [A] o v col row
      = o + A * cos (specDist sqrt sizeX sizeZ cx cz col row * v)
          * exp (-3 * specDist sqrt sizeX sizeZ cx cz col row) := by
  have h : List.range 1 = [0] := rfl
  simp [specCell, specTerm, h]

theorem abs_single_term_le (A d v : ℝ) (hd : 0 ≤ d) :
    |A * Real.cos (d * v) * Real.exp (-3 * d)| ≤ |A| := by
  have h1 : |Real.cos (d * v)| ≤ 1 := Real.abs_cos_le_one _
  have h2 : Real.exp (-3 * d) ≤ 1 := Real.exp_le_one_iff.mpr (by linarith)
  have h3 : 0 < Real.exp (-3 * d) := Real.exp_pos _
  rw [abs_mul, abs_mul, abs_of_pos h3]
  calc |A| * |Real.cos (d * v)| * Real.exp (-3 * d)
      ≤ |A| * 1 * 1 := by
        apply mul_le_mul _ h2 (le_of_lt h3) (by positivity)
        exact mul_le_mul_of_nonneg_left h1 (abs_nonneg A)
    _ = |A| := by ring

theorem specDist_nonneg (sizeX sizeZ : Int) (cx cz : ℝ) (col row : Nat) :
    0 ≤ specDist Real.sqrt sizeX sizeZ cx cz col row := Real.sqrt_nonneg _

theorem specDist_centre (sizeX sizeZ : Int) (c0 r0 : Nat) (hX : 1 ≤ sizeX) (hZ : 1 ≤ sizeZ)
    (hc0 : 2 * (c0 : Int) = sizeX) (hr0 : 2 * (r0 : Int) = sizeZ) :
    specDist Real.sqrt sizeX sizeZ (1 / 2) (1 / 2) c0 r0 = 0 := by
  have hx : (sizeX : ℝ) = 2 * (c0 : ℝ) := by rw [← hc0]; push_cast; ring
  have hz : (sizeZ : ℝ) = 2 * (r0 : ℝ) := by rw [← hr0]; push_cast; ring
  have hc : (c0 : ℝ) ≠ 0 := by
    have : c0 ≠ 0 := by omega
    exact_mod_cast this
  have hr : (r0 : ℝ) ≠ 0 := by
    have : r0 ≠ 0 := by omega
    exact_mod_cast this
  unfold specDist
  rw [hx, hz]
  have e1 : (c0 : ℝ) / (2 * (c0 : ℝ)) - 1 / 2 = 0 := by field_simp; ring
  have e2 : (r0 : ℝ) / (2 * (r0 : ℝ)) - 1 / 2 = 0 := by field_simp; ring
  rw [e1, e2]
  simp

theorem sqrt_eighteenth_pos : 0 < Real.sqrt (1 / 18) := Real.sqrt_pos.mpr (by norm_num)

theorem cos_quarter_turn :
    Real.cos (Real.sqrt (1 / 18) * (Real.pi / (2 * Real.sqrt (1 / 18)))) = 0 := by
  have h : Real.sqrt (1 / 18) * (Real.pi / (2 * Real.sqrt (1 / 18))) = Real.pi / 2 := by
    have := ne_of_gt sqrt_eighteenth_pos
    field_simp
  rw [h, Real.cos_pi_div_two]

theorem odd_sq_ne_five (k : Int) : (2 * k + 1) ^ 2 ≠ 5 := by
  intro h
  have h1 : k ≤ 1 := by nlinarith
  have h2 : -2 ≤ k := by nlinarith
  interval_cases k <;> simp at h

theorem cos_off_centre_ne_zero :
    Real.cos (Real.sqrt (5 / 18) * (Real.pi / (2 * Real.sqrt (1 / 18)))) ≠ 0 := by
  intro h
  obtain ⟨k, hk⟩ := Real.cos_eq_zero_iff.mp h
  have hs := ne_of_gt sqrt_eighteenth_pos
  have hpi := Real.pi_ne_zero
  have h1 : Real.sqrt (5 / 18) = (2 * (k : ℝ) + 1) * Real.sqrt (1 / 18) := by
    generalize Real.sqrt (5 / 18) = a at hk
    generalize Real.sqrt (1 / 18) = s at hk hs
    have hk2 : a * Real.pi = (2 * (k : ℝ) + 1) * Real.pi * s := by
      field_simp at hk
      linarith
    have h0 : Real.pi * (a - (2 * (k : ℝ) + 1) * s) = 0 := by linarith
    rcases mul_eq_zero.mp h0 with h | h
    · exact absurd h hpi
    · linarith
  have h3 : (5 : ℝ) / 18 = (2 * (k : ℝ) + 1) ^ 2 * (1 / 18) := by
    have e1 : Real.sqrt (5 / 18) ^ 2 = 5 / 18 := Real.sq_sqrt (by norm_num)
    have e2 : Real.sqrt (1 / 18) ^ 2 = 1 / 18 := Real.sq_sqrt (by norm_num)
    rw [← e1, h1, mul_pow, e2]
  have h4 : ((2 * k + 1) ^ 2 : ℝ) = 5 := by linarith
  have h5 : (2 * k + 1) ^ 2 = 5 := by exact_mod_cast h4
  exact odd_sq_ne_five k h5

theorem specDist_three_centre :
    specDist Real.sqrt 3 3 (1 / 2) (1 / 2) 1 1 = Real.sqrt (1 / 18) := by
  unfold specDist
  congr 1
  norm_num

theorem specDist_three_edge :
    specDist Real.sqrt 3 3 (1 / 2) (1 / 2) 0 1 = Real.sqrt (5 / 18) := by
  unfold specDist
  congr 1
  norm_num

theorem cells_without_sources (sizeX sizeZ : Int) (offsetLevel volatility : ℝ)
    (hX : 0 ≤ sizeX) (hXZ : sizeX ≤ sizeZ) (hZ2 : sizeZ < 4294967296) :
    ∃ g, WaterDropGenerator Real.sqrt Real.cos Real.exp sizeX sizeZ [] [] [] offsetLevel volatility
        = Except.ok g
      ∧ ∀ col row, col < sizeX.toNat → row < sizeZ.toNat → cellAt g col row = num offsetLevel := by
  obtain ⟨g, hg, _, hcells⟩ := WaterDropGenerator_cells Real.sqrt Real.cos Real.exp sizeX sizeZ
    [] [] [] offsetLevel volatility hX hXZ hZ2 rfl rfl
  refine ⟨g, hg, fun col row hc hr => ?_⟩
  rw [hcells col row hc hr]
  simp [specCell]

theorem cells_zero_volatility (sizeX sizeZ : Int) (xs zs amps : List ℝ) (offsetLevel : ℝ)
    (hX : 0 ≤ sizeX) (hXZ : sizeX ≤ sizeZ) (hZ2 : sizeZ < 4294967296)
    (hx : xs.length = amps.length) (hz : zs.length = amps.length) :
    ∃ g, WaterDropGenerator Real.sqrt Real.cos Real.exp sizeX sizeZ xs zs amps offsetLevel 0
        = Except.ok g
      ∧ ∀ col row, col < sizeX.toNat → row < sizeZ.toNat →
          cellAt g col row = num (offsetLevel + ((List.range amps.length).map fun i =>
            amps.getD i 0
              * Real.exp (-3 * specDist Real.sqrt sizeX sizeZ (xs.getD i 0) (zs.getD i 0) col row)).sum) := by
  obtain ⟨g, hg, _, hcells⟩ := WaterDropGenerator_cells Real.sqrt Real.cos Real.exp sizeX sizeZ
    xs zs amps offsetLevel 0 hX hXZ hZ2 hx hz
  refine ⟨g, hg, fun col row hc hr => ?_⟩
  rw [hcells col row hc hr]
  unfold specCell
  congr 3
  apply List.map_congr_left
  intro i _
  simp [specTerm]

/-! ## Further lemmas: loop variables, store, bounds, superposition -/

theorem colLoop_eq_foldlM [Add α] [Sub α] [Mul α] [Div α] [Neg α] [Zero α] [One α]
    [NatCast α] [IntCast α] (sqrt cos exp : α → α) (oscillators : List (Oscillator α))
    (volatility offsetLevel stepX : JSVal α) (row : Nat) (z : JSVal α) :
    ∀ (n col : Nat) (x : JSVal α) (g : Grid α),
      colLoop sqrt cos exp oscillators volatility offsetLevel stepX row z n col x g
        = (colLoopArgs stepX n col x).foldlM (fun result p =>
            setCell result p.1 row
              (CalculateWavesAtPoint sqrt cos exp oscillators volatility p.2 z + offsetLevel)) g := by
  intro n
  induction n with
  | zero => intro col x g; rfl
  | succ n ih =>
    intro col x g
    unfold colLoop colLoopArgs
    rw [List.foldlM_cons]
    cases setCell g col row
        (CalculateWavesAtPoint sqrt cos exp oscillators volatility x z + offsetLevel) with
    | error e => rfl
    | ok g2 => exact ih (col + 1) (x + stepX) g2

theorem rowLoop_eq_foldlM [Add α] [Sub α] [Mul α] [Div α] [Neg α] [Zero α] [One α]
    [NatCast α] [IntCast α] (sqrt cos exp : α → α) (oscillators : List (Oscillator α))
    (volatility offsetLevel stepX stepZ : JSVal α) (sizeX : Int) :
    ∀ (n row : Nat) (z : JSVal α) (g : Grid α),
      rowLoop sqrt cos exp oscillators volatility offsetLevel stepX stepZ sizeX n row z g
        = (rowLoopArgs stepZ n row z).foldlM (fun result q =>
            (colLoopArgs stepX sizeX.toNat 0 (num 0)).foldlM (fun result p =>
              setCell result p.1 q.1
                (CalculateWavesAtPoint sqrt cos exp oscillators volatility p.2 q.2 + offsetLevel))
              result) g := by
  intro n
  induction n with
  | zero => intro row z g; rfl
  | succ n ih =>
    intro row z g
    unfold rowLoop rowLoopArgs
    rw [List.foldlM_cons, colLoop_eq_foldlM]
    cases (colLoopArgs stepX sizeX.toNat 0 (num 0)).foldlM (fun result p =>
        setCell result p.1 row
          (CalculateWavesAtPoint sqrt cos exp oscillators volatility p.2 z + offsetLevel)) g with
    | error e => rfl
    | ok g2 => exact ih (row + 1) (z + stepZ) g2

theorem colLoopArgs_eq_map [Add α] [Zero α] (step : JSVal α) :
    ∀ (n col : Nat),
      colLoopArgs step n col (runningCoord step col)
        = (List.range n).map fun k => (col + k, runningCoord step (col + k)) := by
  intro n
  induction n with
  | zero => intro col; rfl
  | succ n ih =>
    intro col
    unfold colLoopArgs
    have h := ih (col + 1)
    rw [show runningCoord step col + step = runningCoord step (col + 1) from rfl, h,
      List.range_succ_eq_map, List.map_cons, List.map_map]
    simp only [Nat.add_zero, List.cons.injEq, true_and]
    apply List.map_congr_left
    intro k _
    simp only [Function.comp, Nat.succ_eq_add_one]
    rw [show col + 1 + k = col + (k + 1) by omega]

theorem rowLoopArgs_eq_colLoopArgs [Add α] (step : JSVal α) :
    ∀ (n k : Nat) (v : JSVal α), rowLoopArgs step n k v = colLoopArgs step n k v := by
  intro n
  induction n with
  | zero => intro k v; rfl
  | succ n ih => intro k v; unfold rowLoopArgs colLoopArgs; rw [ih]

theorem colLoopArgs_closed_form [Field α] (size : Int) (n : Nat) :
    colLoopArgs (num 1 / num (size : α)) n 0 (num 0)
      = (List.range n).map fun k : Nat => (k, num ((k : α) * (1 / (size : α)))) := by
  have h := colLoopArgs_eq_map (num 1 / num (size : α)) n 0
  rw [show runningCoord (num 1 / num (size : α)) 0 = num 0 from rfl] at h
  rw [h]
  apply List.map_congr_left
  intro k _
  rw [Nat.zero_add, runningCoord_eq]

theorem WaterDropGenerator_eq_foldlM [Add α] [Sub α] [Mul α] [Div α] [Neg α] [Zero α] [One α]
    [NatCast α] [IntCast α] (sqrt cos exp : α → α) (sizeX sizeZ : Int)
    (xs zs amps : List α) (offsetLevel volatility : α) :
    WaterDropGenerator sqrt cos exp sizeX sizeZ xs zs amps offsetLevel volatility
      = (allocResult sizeX sizeZ >>= fun result =>
          (rowLoopArgs (num 1 / num (sizeZ : α)) sizeZ.toNat 0 (num 0)).foldlM (fun result q =>
            (colLoopArgs (num 1 / num (sizeX : α)) sizeX.toNat 0 (num 0)).foldlM (fun result p =>
              setCell result p.1 q.1
                (CalculateWavesAtPoint sqrt cos exp (buildOscillators xs zs amps) (num volatility)
                  p.2 q.2 + num offsetLevel))
              result) result) := by
  unfold WaterDropGenerator
  cases allocResult sizeX sizeZ with
  | error e => rfl
  | ok result => exact rowLoop_eq_foldlM _ _ _ _ _ _ _ _ _ _ _ _ _

theorem mem_colLoopArgs_unit (size : Int) (p : Nat × JSVal ℝ)
    (hp : p ∈ colLoopArgs (num 1 / num (size : ℝ)) size.toNat 0 (num 0)) :
    p.1 < size.toNat ∧ ∃ x : ℝ, p.2 = num x ∧ 0 ≤ x ∧ x < 1 := by
  rw [colLoopArgs_closed_form] at hp
  obtain ⟨k, hk, rfl⟩ := List.mem_map.mp hp
  have hk2 : k < size.toNat := List.mem_range.mp hk
  have hpos : (0 : ℝ) < (size : ℝ) := by
    have : (0 : Int) < size := by omega
    exact_mod_cast this
  have hlt : (k : ℝ) < (size : ℝ) := by
    have : (k : Int) < size := by omega
    exact_mod_cast this
  refine ⟨hk2, _, rfl, by positivity, ?_⟩
  rw [mul_one_div, div_lt_one hpos]
  exact hlt

theorem filledGrid_square_entry (val : Nat → Nat → JSVal α) (n col : Nat) (hc : col < n) :
    (filledGrid val n n)[col]? = some ((List.range n).map (val col)) := by
  rw [filledGrid_getElem?, if_pos hc, if_pos hc]

theorem add_ne_undefined [Add α] (a b : JSVal α) : a + b ≠ undefined := by
  cases a <;> cases b <;> intro h <;> cases h

theorem cellValue_ne_undefined [Add α] [Sub α] [Mul α] [Div α] [Neg α] [Zero α] [One α]
    [NatCast α] [IntCast α] (sqrt cos exp : α → α) (oscillators : List (Oscillator α))
    (volatility offsetLevel stepX stepZ : JSVal α) (col row : Nat) :
    cellValue sqrt cos exp oscillators volatility offsetLevel stepX stepZ col row ≠ undefined :=
  add_ne_undefined _ _

theorem cellAt_nil (col row : Nat) : cellAt ([] : Grid α) col row = undefined := rfl

theorem returned_number_cell [Field α] (sqrt cos exp : α → α) (sizeX sizeZ : Int)
    (xs zs amps : List α) (offsetLevel volatility : α) (g : Grid α)
    (hg : WaterDropGenerator sqrt cos exp sizeX sizeZ xs zs amps offsetLevel volatility = Except.ok g)
    (col row : Nat) (v : α) (hv : cellAt g col row = num v) :
    col < sizeX.toNat ∧ row < sizeZ.toNat
      ∧ cellValue sqrt cos exp (buildOscillators xs zs amps) (num volatility) (num offsetLevel)
          (num 1 / num (sizeX : α)) (num 1 / num (sizeZ : α)) col row = num v := by
  by_cases hneg : (sizeZ < 0 ∨ 4294967296 ≤ sizeZ) ∨ ((sizeX < 0 ∨ 4294967296 ≤ sizeX) ∧ 1 ≤ sizeZ)
  · rw [WaterDropGenerator_rangeError _ _ _ _ _ _ _ _ _ _ hneg] at hg
    cases hg
  · by_cases hz0 : sizeZ = 0
    · subst hz0
      rw [WaterDropGenerator_zero_rows] at hg
      simp only [Except.ok.injEq] at hg
      subst hg
      rw [cellAt_nil] at hv
      cases hv
    · by_cases hwide : sizeZ < sizeX
      · rw [WaterDropGenerator_typeError _ _ _ _ _ _ _ _ _ _ (by omega) hwide (by omega)] at hg
        cases hg
      · have hX : 0 ≤ sizeX := by omega
        have hXZ : sizeX ≤ sizeZ := by omega
        rw [WaterDropGenerator_ok _ _ _ _ _ _ _ _ _ _ hX hXZ (by omega)] at hg
        simp only [Except.ok.injEq] at hg
        subst hg
        by_cases hin : col < sizeX.toNat ∧ row < sizeZ.toNat
        · refine ⟨hin.1, hin.2, ?_⟩
          rw [cellAt_filledGrid _ _ _ _ _ hin.1 (Int.toNat_le_toNat hXZ) hin.2] at hv
          exact hv
        · rw [cellAt_filledGrid_outside _ _ _ _ _ hin] at hv
          cases hv

theorem abs_sum_map_le (l : List Nat) (f g : Nat → ℝ) (h : ∀ i ∈ l, |f i| ≤ g i) :
    |(l.map f).sum| ≤ (l.map g).sum := by
  induction l with
  | nil => simp
  | cons a l ih =>
    simp only [List.map_cons, List.sum_cons]
    calc |f a + (l.map f).sum| ≤ |f a| + |(l.map f).sum| := abs_add _ _
      _ ≤ g a + (l.map g).sum :=
        add_le_add (h a (List.mem_cons_self _ _)) (ih fun i hi => h i (List.mem_cons_of_mem _ hi))

theorem map_range_getD (f : ℝ → ℝ) (l : List ℝ) :
    (List.range l.length).map (fun i => f (l.getD i 0)) = l.map f := by
  apply List.ext_getElem
  · simp
  · intro i h1 h2
    have hi : i < l.length := by simpa using h1
    simp [List.getD, List.getElem?_eq_getElem hi]

theorem abs_specCell_sub_le (sizeX sizeZ : Int) (xs zs amps : List ℝ) (offsetLevel volatility : ℝ)
    (col row : Nat) :
    |specCell Real.sqrt Real.cos Real.exp sizeX sizeZ xs zs amps offsetLevel volatility col row
        - offsetLevel| ≤ (amps.map fun a => |a|).sum := by
  unfold specCell
  rw [add_sub_cancel_left, ← map_range_getD (fun a => |a|) amps]
  apply abs_sum_map_le
  intro i _
  exact abs_single_term_le _ _ volatility (specDist_nonneg _ _ _ _ _ _)

theorem getD_append_lt (l1 l2 : List ℝ) (i : Nat) (h : i < l1.length) :
    (l1 ++ l2).getD i 0 = l1.getD i 0 := by
  simp [List.getD, List.getElem?_append_left h]

theorem getD_append_add (l1 l2 : List ℝ) (n j : Nat) (h : l1.length = n) :
    (l1 ++ l2).getD (n + j) 0 = l2.getD j 0 := by
  subst h
  simp [List.getD, List.getElem?_append_right]

theorem specCell_append (sizeX sizeZ : Int) (x1 z1 a1 x2 z2 a2 : List ℝ)
    (offsetLevel volatility : ℝ) (col row : Nat)
    (hx1 : x1.length = a1.length) (hz1 : z1.length = a1.length) :
    specCell Real.sqrt Real.cos Real.exp sizeX sizeZ (x1 ++ x2) (z1 ++ z2) (a1 ++ a2)
        offsetLevel volatility col row
      = specCell Real.sqrt Real.cos Real.exp sizeX sizeZ x1 z1 a1 offsetLevel volatility col row
        + specCell Real.sqrt Real.cos Real.exp sizeX sizeZ x2 z2 a2 0 volatility col row := by
  unfold specCell
  rw [List.length_append, List.range_add, List.map_append, List.sum_append, List.map_map, zero_add,
    add_assoc]
  congr 2
  · congr 1
    apply List.map_congr_left
    intro i hi
    have hi2 : i < a1.length := List.mem_range.mp hi
    simp only [specTerm, getD_append_lt a1 a2 i hi2, getD_append_lt x1 x2 i (hx1 ▸ hi2),
      getD_append_lt z1 z2 i (hz1 ▸ hi2)]
  · congr 1
    apply List.map_congr_left
    intro j _
    simp only [Function.comp, specTerm, getD_append_add a1 a2 a1.length j rfl,
      getD_append_add x1 x2 a1.length j hx1, getD_append_add z1 z2 a1.length j hz1]

theorem oscLoopStore_eq [One α] [Zero α] :
    ∀ (n iOsc : Nat) (st : Store α), st.oscillators.length = iOsc →
      oscLoopStore n iOsc st
        = { st with oscillators :=
              st.oscillators ++ (List.range n).map fun k => oscillatorAt st (iOsc + k) } := by
  intro n
  induction n with
  | zero => intro iOsc st _; simp [oscLoopStore]
  | succ n ih =>
    intro iOsc st h
    unfold oscLoopStore
    have hset : oscSet st.oscillators iOsc (oscillatorAt st iOsc)
        = st.oscillators ++ [oscillatorAt st iOsc] := by
      unfold oscSet
      rw [if_neg (by omega)]
    rw [hset, ih (iOsc + 1) _ (by simp [h])]
    simp only [List.range_succ_eq_map, List.map_cons, List.map_map, List.append_assoc,
      List.singleton_append, Nat.add_zero]
    congr 3
    apply List.map_congr_left
    intro k _
    simp only [Function.comp, Nat.succ_eq_add_one]
    rw [show iOsc + 1 + k = iOsc + (k + 1) by omega]
    rfl

theorem colLoopStore_eq [Add α] [Sub α] [Mul α] [Div α] [Neg α] [Zero α] [One α]
    [NatCast α] [IntCast α] (sqrt cos exp : α → α) (volatility offsetLevel stepX : JSVal α)
    (row : Nat) (z : JSVal α) :
    ∀ (n col : Nat) (x : JSVal α) (st : Store α),
      colLoopStore sqrt cos exp volatility offsetLevel stepX row z n col x st
        = (colLoop sqrt cos exp st.oscillators volatility offsetLevel stepX row z n col x st.result).map
            fun g => { st with result := g } := by
  intro n
  induction n with
  | zero => intro col x st; rfl
  | succ n ih =>
    intro col x st
    unfold colLoopStore colLoop
    cases setCell st.result col row
        (CalculateWavesAtPoint sqrt cos exp st.oscillators volatility x z + offsetLevel) with
    | error e => rfl
    | ok g => exact ih (col + 1) (x + stepX) _

theorem rowLoopStore_eq [Add α] [Sub α] [Mul α] [Div α] [Neg α] [Zero α] [One α]
    [NatCast α] [IntCast α] (sqrt cos exp : α → α)
    (volatility offsetLevel stepX stepZ : JSVal α) (sizeX : Int) :
    ∀ (n row : Nat) (z : JSVal α) (st : Store α),
      rowLoopStore sqrt cos exp volatility offsetLevel stepX stepZ sizeX n row z st
        = (rowLoop sqrt cos exp st.oscillators volatility offsetLevel stepX stepZ sizeX
            n row z st.result).map fun g => { st with result := g } := by
  intro n
  induction n with
  | zero => intro row z st; rfl
  | succ n ih =>
    intro row z st
    unfold rowLoopStore rowLoop
    rw [colLoopStore_eq]
    cases colLoop sqrt cos exp st.oscillators volatility offsetLevel stepX row z
        sizeX.toNat 0 (num 0) st.result with
    | error e => rfl
    | ok g => exact ih (row + 1) (z + stepZ) _

theorem WaterDropGeneratorStore_eq [Add α] [Sub α] [Mul α] [Div α] [Neg α] [Zero α] [One α]
    [NatCast α] [IntCast α] (sqrt cos exp : α → α) (sizeX sizeZ : Int)
    (offsetLevel volatility : α) (st : Store α) :
    WaterDropGeneratorStore sqrt cos exp sizeX sizeZ offsetLevel volatility st
      = (WaterDropGenerator sqrt cos exp sizeX sizeZ st.xPositionsNormalized
          st.zPositionsNormalized st.amplitudes offsetLevel volatility).map fun g =>
          { st with
            oscillators := buildOscillators st.xPositionsNormalized st.zPositionsNormalized
              st.amplitudes
            result := g } := by
  unfold WaterDropGeneratorStore WaterDropGenerator
  simp only [oscLoopStore_eq _ 0 { st with oscillators := [] } rfl, List.nil_append, Nat.zero_add]
  have hb : ((List.range st.amplitudes.length).map fun k =>
      oscillatorAt { st with oscillators := [] } k)
      = buildOscillators st.xPositionsNormalized st.zPositionsNormalized st.amplitudes := rfl
  rw [hb]
  cases allocResult sizeX sizeZ with
  | error e => rfl
  | ok g0 => exact rowLoopStore_eq _ _ _ _ _ _ _ _ _ _ _ _

/-- In every arithmetic: for `0 ≤ sizeX ≤ sizeZ < 2^32` the call returns a grid
whose cell `(col, row)` is the wave height at the running coordinates, which
does not depend on `offsetLevel`, plus `offsetLevel` (one addition of the
arithmetic). -/
theorem cell_is_waves_plus_offset [Add α] [Sub α] [Mul α] [Div α] [Neg α] [Zero α] [One α]
    [NatCast α] [IntCast α] (sqrt cos exp : α → α) (sizeX sizeZ : Int) (xs zs amps : List α)
    (offsetLevel volatility : α) (hX : 0 ≤ sizeX) (hXZ : sizeX ≤ sizeZ)
    (hZ2 : sizeZ < 4294967296) (col row : Nat) (hc : col < sizeX.toNat)
    (hr : row < sizeZ.toNat) :
    ∃ g, WaterDropGenerator sqrt cos exp sizeX sizeZ xs zs amps offsetLevel volatility
        = Except.ok g
      ∧ cellAt g col row
        = CalculateWavesAtPoint sqrt cos exp (buildOscillators xs zs amps) (num volatility)
            (runningCoord (num 1 / num (sizeX : α)) col)
            (runningCoord (num 1 / num (sizeZ : α)) row) + num offsetLevel := by
  refine ⟨_, WaterDropGenerator_ok sqrt cos exp sizeX sizeZ xs zs amps offsetLevel volatility hX
    hXZ hZ2, ?_⟩
  rw [cellAt_filledGrid _ _ _ _ _ hc (Int.toNat_le_toNat hXZ) hr]
  rfl

/-! ## The generator in binary64 arithmetic -/

set_option maxRecDepth 20000

/-- In binary64 arithmetic, the `1 x 1` grid with one source at `(0, 0)`: the
sample point is `(0, 0)`, the distance is `sqrt 0 = 0`, and the cell is
`0 + 1 * A * cos(0 * 25) * exp(-0 * 3) + o`, each operation rounded. -/
theorem doubles_one_source_at_origin (sqrt cos exp : Binary64 → Binary64)
    (hsqrt : sqrt 0 = 0) (hcos : cos 0 = 1) (hexp : exp (-0) = 1) (A o : Binary64) :
    WaterDropGenerator sqrt cos exp 1 1 [0] [0] [A] o 25
      = Except.ok [[num (0 + 1 * A * 1 * 1 + o)]] := by
  rw [WaterDropGenerator_single_cell]
  have h : CalculateWavesAtPoint sqrt cos exp (buildOscillators [0] [0] [A]) (num 25) (num 0) (num 0)
        + num o
      = num (0 + 1 * A * cos (sqrt ((0 - 0) * (0 - 0) + (0 - 0) * (0 - 0)) * 25)
          * exp (-sqrt ((0 - 0) * (0 - 0) + (0 - 0) * (0 - 0)) * 3) + o) := rfl
  have h0 : ((0 : Binary64) - 0) * (0 - 0) + (0 - 0) * (0 - 0) = 0 := by decide
  have h1 : (0 : Binary64) * 25 = 0 := by decide
  have h2 : -(0 : Binary64) * 3 = -0 := by decide
  rw [h, h0, hsqrt, h1, hcos, h2, hexp]

/-- In binary64 arithmetic, the `1 x 1` grid with two sources at `(0, 0)`. -/
theorem doubles_two_sources_at_origin (sqrt cos exp : Binary64 → Binary64)
    (hsqrt : sqrt 0 = 0) (hcos : cos 0 = 1) (hexp : exp (-0) = 1) (A B o : Binary64) :
    WaterDropGenerator sqrt cos exp 1 1 ([0] ++ [0]) ([0] ++ [0]) ([A] ++ [B]) o 25
      = Except.ok [[num (0 + 1 * A * 1 * 1 + 1 * B * 1 * 1 + o)]] := by
  rw [WaterDropGenerator_single_cell]
  have h : CalculateWavesAtPoint sqrt cos exp (buildOscillators ([0] ++ [0]) ([0] ++ [0]) ([A] ++ [B]))
        (num 25) (num 0) (num 0) + num o
      = num (0 + 1 * A * cos (sqrt ((0 - 0) * (0 - 0) + (0 - 0) * (0 - 0)) * 25)
            * exp (-sqrt ((0 - 0) * (0 - 0) + (0 - 0) * (0 - 0)) * 3)
          + 1 * B * cos (sqrt ((0 - 0) * (0 - 0) + (0 - 0) * (0 - 0)) * 25)
            * exp (-sqrt ((0 - 0) * (0 - 0) + (0 - 0) * (0 - 0)) * 3) + o) := rfl
  have h0 : ((0 : Binary64) - 0) * (0 - 0) + (0 - 0) * (0 - 0) = 0 := by decide
  have h1 : (0 : Binary64) * 25 = 0 := by decide
  have h2 : -(0 : Binary64) * 3 = -0 := by decide
  rw [h, h0, hsqrt, h1, hcos, h2, hexp]

/-! Evaluations of the rounded operations at the numbers the claims below use. -/

theorem double_wave_ten : (0 : Binary64) + 1 * 10 * 1 * 1 = 10 := by decide
theorem double_wave_tenth : (0 : Binary64) + 1 * 0.1 * 1 * 1 = 0.1 := by decide
theorem double_wave_two_tenths : (0 : Binary64) + 1 * 0.1 * 1 * 1 + 1 * 0.1 * 1 * 1 = 0.2 := by decide
theorem double_ten_plus_zero : (10 : Binary64) + 0 = 10 := by decide
theorem double_ten_plus_tenth : (10 : Binary64) + 0.1 = 10.1 := by decide
theorem double_tenth_plus_zero : (0.1 : Binary64) + 0 = 0.1 := by decide
theorem double_tenth_plus_fifth : (0.1 : Binary64) + 0.2 = 0.30000000000000004 := by decide
theorem double_tenth_plus_eleven_tenths : (0.1 : Binary64) + 1.1 = 1.2000000000000002 := by decide
theorem double_fifth_plus_eleven_tenths : (0.2 : Binary64) + 1.1 = 1.3 := by decide
theorem double_offset_difference :
    (10.1 : Binary64) - 10 = 0.09999999999999964 ∧ (0.1 : Binary64) - 0 = 0.1
      ∧ (10.1 : Binary64) - 10 ≠ 0.1 - 0 := by decide
theorem double_bound_exceeded :
    (0.30000000000000004 : Binary64) - 0.2 = 0.10000000000000003
      ∧ Binary64.lt 0.1 (0.30000000000000004 - 0.2) = true := by decide
theorem double_parts_sum :
    (1.2000000000000002 : Binary64) + 0.1 = 1.3000000000000003
      ∧ (1.2000000000000002 : Binary64) + 0.1 ≠ 1.3 := by decide

/-! ## Claims -/

/-- C1 (failing input). With `sizeX = 2`, `sizeZ = 1` and one source the call
raises a `TypeError` (the write `result[1][0]` finds no outer entry), so no
grid is returned and no cell of it equals the closed form. -/
theorem C1_wide_grid_raises :
    WaterDropGenerator Real.sqrt Real.cos Real.exp 2 1 [1 / 2] [1 / 2] [1] 0 25
      = Except.error JSError.typeError :=
  WaterDropGenerator_typeError _ _ _ 2 1 _ _ _ _ _ (by decide) (by decide) (by decide)

/-- C2 (failing input). With `sizeX = 3`, `sizeZ = 2` the call raises a
`TypeError` and returns no grid; with `sizeX = 1`, `sizeZ = 2` it returns a grid
with two outer entries (not one), the second of which is a single hole. -/
theorem C2_shape_mismatch :
    WaterDropGenerator Real.sqrt Real.cos Real.exp 3 2 [] [] [] 5 0
        = Except.error JSError.typeError
      ∧ WaterDropGenerator Real.sqrt Real.cos Real.exp 1 2 [] [] [] 5 0
        = Except.ok [[num 5, num 5], [undefined]] := by
  refine ⟨WaterDropGenerator_typeError _ _ _ 3 2 _ _ _ _ _ (by decide) (by decide) (by decide), ?_⟩
  rw [WaterDropGenerator_ok _ _ _ 1 2 _ _ _ _ _ (by decide) (by decide) (by decide)]
  have h1 : (1 : Int).toNat = 1 := rfl
  have h2 : (2 : Int).toNat = 2 := rfl
  have h3 : List.range 2 = [0, 1] := rfl
  simp [filledGrid, h1, h2, h3, cellValue, CalculateWavesAtPoint, buildOscillators, num_add]

/-- C3 (failing input). With no source, `sizeX = 2`, `sizeZ = 1`,
`offsetLevel = 47` the call raises a `TypeError`: no cell equal to `47` is
returned. (The scenario of the spec, `sizeX = sizeZ = 4`, does return a grid
whose 16 cells all equal `47`.) -/
theorem C3_no_source_wide_grid_raises :
    WaterDropGenerator Real.sqrt Real.cos Real.exp 2 1 [] [] [] 47 25
        = Except.error JSError.typeError
      ∧ ∃ g, WaterDropGenerator Real.sqrt Real.cos Real.exp 4 4 [] [] [] 47 25 = Except.ok g
          ∧ ∀ col row, col < 4 → row < 4 → cellAt g col row = num 47 :=
  ⟨WaterDropGenerator_typeError _ _ _ 2 1 _ _ _ _ _ (by decide) (by decide) (by decide),
    cells_without_sources 4 4 47 25 (by decide) (by decide) (by decide)⟩

/-- C4 (counterexample). With `amplitudes` of length 3 and
`xPositionsNormalized` of length 2 the call signals no error: it returns a
`1 x 1` grid whose cell is `NaN`. -/
theorem C4_mismatched_lengths_return_grid :
    WaterDropGenerator Real.sqrt Real.cos Real.exp 1 1 [0, 0] [0, 0, 0] [1, 1, 1] 0 25
      = Except.ok [[nan]] := by
  rw [WaterDropGenerator_single_cell]
  have h := cellValue_nan_of_short_positions Real.sqrt Real.cos Real.exp [0, 0] [0, 0, 0] [1, 1, 1]
    (num 25) (num 0) (num 0) (num 0) 0 0 (Or.inl (by decide))
  unfold cellValue at h
  exact congrArg (fun v => Except.ok [[v]]) h

/-- C4 (amended). In every arithmetic (the number type, its operations and
`Math.sqrt`, `Math.cos`, `Math.exp` are arbitrary: exact reals as well as
binary64 doubles): a call whose three sequences do not all have the same length
signals no error on that account: for `0 ≤ sizeX ≤ sizeZ < 2^32` it returns a
grid. That grid is the one obtained from the position sequences truncated to
`amplitudes.length` entries (surplus positions are ignored), and when a position
sequence is shorter than `amplitudes` (its missing entries read as `undefined`)
every cell `(col, row)` with `col < sizeX`, `row < sizeZ` is `NaN`. -/
theorem C4_mismatched_lengths [Add α] [Sub α] [Mul α] [Div α] [Neg α] [Zero α] [One α]
    [NatCast α] [IntCast α] (sqrt cos exp : α → α) (sizeX sizeZ : Int) (xs zs amps : List α)
    (offsetLevel volatility : α)
    (_hlen : ¬ (xs.length = amps.length ∧ zs.length = amps.length))
    (hX : 0 ≤ sizeX) (hXZ : sizeX ≤ sizeZ) (hZ2 : sizeZ < 4294967296) :
    ∃ g, WaterDropGenerator sqrt cos exp sizeX sizeZ xs zs amps offsetLevel volatility
        = Except.ok g
      ∧ WaterDropGenerator sqrt cos exp sizeX sizeZ
          (xs.take amps.length) (zs.take amps.length) amps offsetLevel volatility = Except.ok g
      ∧ ((xs.length < amps.length ∨ zs.length < amps.length) →
          ∀ col row, col < sizeX.toNat → row < sizeZ.toNat → cellAt g col row = nan) := by
  refine ⟨_, WaterDropGenerator_ok sqrt cos exp sizeX sizeZ xs zs amps offsetLevel volatility hX
    hXZ hZ2, ?_, ?_⟩
  · rw [WaterDropGenerator_ok sqrt cos exp sizeX sizeZ _ _ amps offsetLevel volatility hX hXZ hZ2,
      buildOscillators_take]
  · intro hshort col row hc hr
    rw [cellAt_filledGrid _ _ _ _ _ hc (Int.toNat_le_toNat hXZ) hr]
    exact cellValue_nan_of_short_positions _ _ _ xs zs amps _ _ _ _ col row hshort

/-- C4 (amended), at the concrete input of the claim: `amplitudes` of length 3,
`xPositionsNormalized` of length 2, on a `2 x 2` grid, in binary64 arithmetic
(with any `Math.sqrt`, `Math.cos`, `Math.exp`). -/
theorem C4_mismatched_lengths_witness :
    ¬ (([0, 1] : List Binary64).length = ([1, 1, 1] : List Binary64).length
        ∧ ([0, 0, 0] : List Binary64).length = ([1, 1, 1] : List Binary64).length)
      ∧ ∀ sqrt cos exp : Binary64 → Binary64,
          ∃ g, WaterDropGenerator sqrt cos exp 2 2 [0, 1] [0, 0, 0] [1, 1, 1] 47 25 = Except.ok g
            ∧ WaterDropGenerator sqrt cos exp 2 2
                ([0, 1].take ([1, 1, 1] : List Binary64).length)
                ([0, 0, 0].take ([1, 1, 1] : List Binary64).length)
                [1, 1, 1] 47 25 = Except.ok g
            ∧ ((([0, 1] : List Binary64).length < ([1, 1, 1] : List Binary64).length
                  ∨ ([0, 0, 0] : List Binary64).length < ([1, 1, 1] : List Binary64).length) →
                ∀ col row, col < (2 : Int).toNat → row < (2 : Int).toNat →
                  cellAt g col row = nan) :=
  ⟨by decide, fun sqrt cos exp => C4_mismatched_lengths sqrt cos exp 2 2 [0, 1] [0, 0, 0]
    [1, 1, 1] 47 25 (by decide) (by decide) (by decide) (by decide)⟩

/-- C5 (counterexample). With `sizeX = 0`, `sizeZ = 1` the call signals no
error: it returns the grid `[[]]`; with `sizeZ = 0` it returns the empty grid. -/
theorem C5_zero_size_returns_grid :
    WaterDropGenerator Real.sqrt Real.cos Real.exp 0 1 [] [] [] 47 25 = Except.ok [[]]
      ∧ WaterDropGenerator Real.sqrt Real.cos Real.exp 1 0 [] [] [] 47 25 = Except.ok [] :=
  ⟨rfl, rfl⟩

/-- C5 (amended). In every arithmetic (the number type, its operations and
`Math.sqrt`, `Math.cos`, `Math.exp` are arbitrary: exact reals as well as
binary64 doubles): a call with `sizeX ≤ 0` or `sizeZ ≤ 0` signals an error
exactly when `Array` rejects a length it is given, that is when `sizeZ < 0`, or
`sizeZ ≥ 2^32`, or `sizeX < 0` and `sizeZ ≥ 1`: it then raises a `RangeError` and
returns no grid. With `sizeZ = 0` it returns the empty grid (whatever `sizeX`),
and with `sizeX = 0`, `1 ≤ sizeZ < 2^32` it returns `sizeZ` empty inner arrays. -/
theorem C5_nonpositive_sizes [Add α] [Sub α] [Mul α] [Div α] [Neg α] [Zero α] [One α]
    [NatCast α] [IntCast α] (sqrt cos exp : α → α) (sizeX sizeZ : Int) (xs zs amps : List α)
    (offsetLevel volatility : α) (h : sizeX ≤ 0 ∨ sizeZ ≤ 0) :
    ((sizeZ < 0 ∨ 4294967296 ≤ sizeZ ∨ (sizeX < 0 ∧ 1 ≤ sizeZ)) →
        WaterDropGenerator sqrt cos exp sizeX sizeZ xs zs amps offsetLevel volatility
          = Except.error JSError.rangeError)
      ∧ (sizeZ = 0 →
        WaterDropGenerator sqrt cos exp sizeX sizeZ xs zs amps offsetLevel volatility
          = Except.ok [])
      ∧ (sizeX = 0 → 1 ≤ sizeZ → sizeZ < 4294967296 →
        WaterDropGenerator sqrt cos exp sizeX sizeZ xs zs amps offsetLevel volatility
          = Except.ok (List.replicate sizeZ.toNat []))
      ∧ ((sizeZ < 0 ∨ 4294967296 ≤ sizeZ ∨ (sizeX < 0 ∧ 1 ≤ sizeZ)) ∨ sizeZ = 0
          ∨ (sizeX = 0 ∧ 1 ≤ sizeZ ∧ sizeZ < 4294967296)) := by
  refine ⟨fun hneg => WaterDropGenerator_rangeError sqrt cos exp _ _ _ _ _ _ _ ?_, ?_, ?_,
    by omega⟩
  · rcases hneg with h1 | h1 | h1
    · exact Or.inl (Or.inl h1)
    · exact Or.inl (Or.inr h1)
    · exact Or.inr ⟨Or.inl h1.1, h1.2⟩
  · intro hz
    subst hz
    exact WaterDropGenerator_zero_rows sqrt cos exp _ _ _ _ _ _
  · intro hx hz hz2
    subst hx
    rw [WaterDropGenerator_ok sqrt cos exp 0 sizeZ xs zs amps offsetLevel volatility (le_refl 0)
      (by omega) hz2]
    exact congrArg Except.ok (filledGrid_zero_cols _ _)

/-- C5 (amended), at concrete inputs: `sizeX = -1`, `sizeZ = 2` raises a
`RangeError`, in exact real arithmetic and in binary64 arithmetic (with any
`Math.sqrt`, `Math.cos`, `Math.exp`). -/
theorem C5_nonpositive_sizes_witness :
    WaterDropGenerator Real.sqrt Real.cos Real.exp (-1) 2 [] [] [] 47 25
        = Except.error JSError.rangeError
      ∧ ∀ sqrt cos exp : Binary64 → Binary64,
          WaterDropGenerator sqrt cos exp (-1) 2 [] [] [] 47 25
            = Except.error JSError.rangeError :=
  ⟨(C5_nonpositive_sizes Real.sqrt Real.cos Real.exp (-1) 2 [] [] [] 47 25
      (Or.inl (by decide))).1 (Or.inr (Or.inr ⟨by decide, by decide⟩)),
    fun sqrt cos exp => (C5_nonpositive_sizes sqrt cos exp (-1) 2 [] [] [] 47 25
      (Or.inl (by decide))).1 (Or.inr (Or.inr ⟨by decide, by decide⟩))⟩

/-- C6 (amended). In exact real arithmetic: for even `sizeX ≤ sizeZ < 2^32`
(both at least `1`, `sizeZ` even), so that the sample point of the cell
`(sizeX / 2, sizeZ / 2)` is exactly `(0.5, 0.5)`, every amplitude `A` (in
particular `A > 0`) and every volatility: with one source at `(0.5, 0.5)` and
`offsetLevel = 0` the call returns a grid whose cell `(sizeX / 2, sizeZ / 2)`
holds `A`, and every cell of the grid that holds a number has an absolute value
at most `|A|`. -/
theorem C6_centre_cell_largest (sizeX sizeZ : Int) (A volatility : ℝ) (c0 r0 : Nat)
    (hX : 1 ≤ sizeX) (hXZ : sizeX ≤ sizeZ) (hZ2 : sizeZ < 4294967296)
    (hc0 : 2 * (c0 : Int) = sizeX) (hr0 : 2 * (r0 : Int) = sizeZ) :
    ∃ g, WaterDropGenerator Real.sqrt Real.cos Real.exp sizeX sizeZ [1 / 2] [1 / 2] [A] 0 volatility
        = Except.ok g
      ∧ cellAt g c0 r0 = num A
      ∧ ∀ col row v, cellAt g col row = num v → |v| ≤ |A| := by
  have hle : sizeX.toNat ≤ sizeZ.toNat := Int.toNat_le_toNat hXZ
  refine ⟨_, WaterDropGenerator_ok _ _ _ sizeX sizeZ _ _ _ 0 volatility (by omega) hXZ hZ2, ?_, ?_⟩
  · rw [cellAt_filledGrid _ _ _ _ _ (by omega) hle (by omega),
      cellValue_eq_specCell _ _ _ sizeX sizeZ [1 / 2] [1 / 2] [A] 0 volatility c0 r0 rfl rfl, specCell_single,
      specDist_centre sizeX sizeZ c0 r0 hX (by omega) hc0 hr0]
    simp
  · intro col row v hv
    by_cases hin : col < sizeX.toNat ∧ row < sizeZ.toNat
    · rw [cellAt_filledGrid _ _ _ _ _ hin.1 hle hin.2,
        cellValue_eq_specCell _ _ _ sizeX sizeZ [1 / 2] [1 / 2] [A] 0 volatility col row rfl rfl,
        specCell_single] at hv
      simp only [num.injEq] at hv
      rw [← hv, zero_add]
      exact abs_single_term_le A _ volatility (specDist_nonneg _ _ _ _ _ _)
    · rw [cellAt_filledGrid_outside _ _ _ _ _ hin] at hv
      cases hv

/-- C6 (amended), at a concrete input: the `2 x 2` grid, amplitude `10`,
volatility `25`; the centre cell is `(1, 1)`. -/
theorem C6_centre_cell_largest_witness :
    ∃ g, WaterDropGenerator Real.sqrt Real.cos Real.exp 2 2 [1 / 2] [1 / 2] [10] 0 25
        = Except.ok g
      ∧ cellAt g 1 1 = num 10
      ∧ ∀ col row v, cellAt g col row = num v → |v| ≤ |(10 : ℝ)| :=
  C6_centre_cell_largest 2 2 10 25 1 1 (by decide) (by decide) (by decide) (by decide) (by decide)

/-- C6 (counterexample). On the `3 x 3` grid with one source at `(0.5, 0.5)`,
amplitude `1`, offset `0` and volatility `π / (2 √(1/18)) > 0`, the cell
`(1, 1)` is a cell nearest to the source (distance `√(1/18)`), its value is `0`
(the cosine factor is `cos (π / 2)`), and the farther cell `(0, 1)` has a
strictly larger absolute value. -/
theorem C6_nearest_cell_not_largest :
    0 < Real.pi / (2 * Real.sqrt (1 / 18))
      ∧ (∀ col row : Nat, col < 3 → row < 3 →
          specDist Real.sqrt 3 3 (1 / 2) (1 / 2) 1 1 ≤ specDist Real.sqrt 3 3 (1 / 2) (1 / 2) col row)
      ∧ ∃ g v0 v,
          WaterDropGenerator Real.sqrt Real.cos Real.exp 3 3 [1 / 2] [1 / 2] [1] 0
              (Real.pi / (2 * Real.sqrt (1 / 18))) = Except.ok g
            ∧ cellAt g 1 1 = num v0 ∧ cellAt g 0 1 = num v ∧ |v0| < |v| := by
  refine ⟨div_pos Real.pi_pos (mul_pos (by norm_num) sqrt_eighteenth_pos), ?_, ?_⟩
  · intro col row hc hr
    unfold specDist
    apply Real.sqrt_le_sqrt
    interval_cases col <;> interval_cases row <;> norm_num
  · obtain ⟨g, hg, _, hcells⟩ := WaterDropGenerator_cells Real.sqrt Real.cos Real.exp 3 3
      [1 / 2] [1 / 2] [1] 0 (Real.pi / (2 * Real.sqrt (1 / 18))) (by decide) (by decide) (by decide)
      rfl rfl
    refine ⟨g, _, _, hg, hcells 1 1 (by decide) (by decide), hcells 0 1 (by decide) (by decide), ?_⟩
    rw [specCell_single, specCell_single, specDist_three_centre, specDist_three_edge,
      cos_quarter_turn]
    simp only [zero_add, one_mul, zero_mul, abs_zero]
    exact abs_pos.mpr (mul_ne_zero cos_off_centre_ne_zero (ne_of_gt (Real.exp_pos _)))

/-- C7 (failing input). For `sizeX = 2`, `sizeZ = 1` the allocation has one
outer entry of two holes, and the write `result[1][0]` of the fill loop
(`col = 1 < sizeX`) finds no outer entry: `TypeError`. For `sizeX = 1`,
`sizeZ = 2` the inner arrays have length `1`, and the write `result[0][1]`
(`row = 1 < sizeZ`) lies past that length: the inner array grows. -/
theorem C7_write_outside_allocation (v : JSVal ℝ) :
    (allocResult 2 1 : Except JSError (Grid ℝ)) = Except.ok [[undefined, undefined]]
      ∧ setCell [[undefined, undefined]] 1 0 v = Except.error JSError.typeError
      ∧ (allocResult 1 2 : Except JSError (Grid ℝ)) = Except.ok [[undefined], [undefined]]
      ∧ setCell [[undefined], [undefined]] 0 1 v = Except.ok [[undefined, v], [undefined]] :=
  ⟨rfl, rfl, rfl, rfl⟩

/-- C8. The call `WaterDropGenerator(1, 1, [0], [0], [10], 0, 25)` returns the
grid `[[10]]`; the single sample point `(0, 0)` is at distance `0` from the
source; for every amplitude `A`, offset and volatility the `1 x 1` grid with one
source at `(0, 0)` is `[[offsetLevel + A]]`. -/
theorem C8_single_cell_at_source :
    WaterDropGenerator Real.sqrt Real.cos Real.exp 1 1 [0] [0] [10] 0 25 = Except.ok [[num 10]]
      ∧ specDist Real.sqrt 1 1 (0 : ℝ) 0 0 0 = 0
      ∧ ∀ A offsetLevel volatility : ℝ,
          WaterDropGenerator Real.sqrt Real.cos Real.exp 1 1 [0] [0] [A] offsetLevel volatility
            = Except.ok [[num (offsetLevel + A)]] := by
  have key : ∀ A offsetLevel volatility : ℝ,
      WaterDropGenerator Real.sqrt Real.cos Real.exp 1 1 [0] [0] [A] offsetLevel volatility
        = Except.ok [[num (offsetLevel + A)]] := by
    intro A o v
    rw [WaterDropGenerator_single_cell]
    have h : CalculateWavesAtPoint Real.sqrt Real.cos Real.exp (buildOscillators [0] [0] [A])
        (num v) (num 0) (num 0) + num o
        = num (0 + 1 * A * Real.cos (Real.sqrt ((0 - 0) * (0 - 0) + (0 - 0) * (0 - 0)) * v)
            * Real.exp (-Real.sqrt ((0 - 0) * (0 - 0) + (0 - 0) * (0 - 0)) * 3) + o) := rfl
    rw [h]
    simp [add_comm]
  refine ⟨?_, by simp [specDist], key⟩
  have := key 10 0 25
  simpa using this

/-- C9 (failing input). With `volatility = 0`, `sizeX = 3`, `sizeZ = 2` and one
source the call is rejected with a `TypeError`: no cell is computed. -/
theorem C9_zero_volatility_wide_grid_raises :
    WaterDropGenerator Real.sqrt Real.cos Real.exp 3 2 [1 / 2] [1 / 2] [1] 0 0
      = Except.error JSError.typeError :=
  WaterDropGenerator_typeError _ _ _ 3 2 _ _ _ _ _ (by decide) (by decide) (by decide)

/-- C10 (counterexample). In the binary64 arithmetic of the code, for every
`Math.sqrt`, `Math.cos`, `Math.exp` with the values the language fixes at zero
(`sqrt(0) = 0`, `cos(0) = 1`, `exp(-0) = 1`): the `1 x 1` grid with one source of
amplitude `10` at `(0, 0)` is `[[10]]` for `offsetLevel = 0` and `[[10.1]]` for
`offsetLevel = 0.1`, and `10.1 - 10 = 0.09999999999999964` is not
`0.1 - 0 = 0.1`: the cells do not differ by exactly `o2 - o1`. -/
theorem C10_offset_difference_rounded :
    ((10.1 : Binary64) - 10 = 0.09999999999999964 ∧ (0.1 : Binary64) - 0 = 0.1
        ∧ (10.1 : Binary64) - 10 ≠ 0.1 - 0)
      ∧ ∀ sqrt cos exp : Binary64 → Binary64, sqrt 0 = 0 → cos 0 = 1 → exp (-0) = 1 →
          WaterDropGenerator sqrt cos exp 1 1 [0] [0] [10] 0 25 = Except.ok [[num 10]]
            ∧ WaterDropGenerator sqrt cos exp 1 1 [0] [0] [10] 0.1 25 = Except.ok [[num 10.1]] := by
  refine ⟨double_offset_difference, fun sqrt cos exp hsqrt hcos hexp => ⟨?_, ?_⟩⟩
  · rw [doubles_one_source_at_origin sqrt cos exp hsqrt hcos hexp, double_wave_ten,
      double_ten_plus_zero]
  · rw [doubles_one_source_at_origin sqrt cos exp hsqrt hcos hexp, double_wave_ten,
      double_ten_plus_tenth]

/-- C10 (amended). In exact real arithmetic: for every valid input (sizes at
least `1`, three sequences of equal length) and offsets `o1`, `o2`, whenever the
call with `o1` returns a grid, the call with `o2` returns a grid of the same
shape (same number of outer entries, same length of every inner array), every
cell `(col, row)` with `col < sizeX`, `row < sizeZ` holds a number in both grids
and the two numbers differ by exactly `o2 - o1`, and every other position is
`undefined` in both grids. -/
theorem C10_offset_added_uniformly (sizeX sizeZ : Int) (xs zs amps : List ℝ)
    (volatility o1 o2 : ℝ) (g1 : Grid ℝ)
    (hX : 1 ≤ sizeX) (hZ : 1 ≤ sizeZ) (hx : xs.length = amps.length) (hz : zs.length = amps.length)
    (h1 : WaterDropGenerator Real.sqrt Real.cos Real.exp sizeX sizeZ xs zs amps o1 volatility
      = Except.ok g1) :
    ∃ g2, WaterDropGenerator Real.sqrt Real.cos Real.exp sizeX sizeZ xs zs amps o2 volatility
        = Except.ok g2
      ∧ g2.length = g1.length
      ∧ (∀ c : Nat, (g2[c]?).map List.length = (g1[c]?).map List.length)
      ∧ (∀ col row, col < sizeX.toNat → row < sizeZ.toNat →
          ∃ v, cellAt g1 col row = num v ∧ cellAt g2 col row = num (v + (o2 - o1)))
      ∧ (∀ col row, ¬ (col < sizeX.toNat ∧ row < sizeZ.toNat) →
          cellAt g1 col row = undefined ∧ cellAt g2 col row = undefined) := by
  by_cases hbig : 4294967296 ≤ sizeZ ∨ 4294967296 ≤ sizeX
  · rw [WaterDropGenerator_rangeError _ _ _ sizeX sizeZ xs zs amps o1 volatility (by omega)] at h1
    cases h1
  by_cases hXZ : sizeX ≤ sizeZ
  · have hle : sizeX.toNat ≤ sizeZ.toNat := Int.toNat_le_toNat hXZ
    rw [WaterDropGenerator_ok _ _ _ sizeX sizeZ xs zs amps o1 volatility (by omega) hXZ
      (by omega)] at h1
    simp only [Except.ok.injEq] at h1
    subst h1
    refine ⟨_, WaterDropGenerator_ok _ _ _ sizeX sizeZ xs zs amps o2 volatility (by omega) hXZ
      (by omega), ?_, ?_, ?_, ?_⟩
    · rw [filledGrid_length, filledGrid_length]
    · intro c
      exact filledGrid_inner_length _ _ _ _ c
    · intro col row hc hr
      refine ⟨specCell Real.sqrt Real.cos Real.exp sizeX sizeZ xs zs amps o1 volatility col row, ?_, ?_⟩
      · rw [cellAt_filledGrid _ _ _ _ _ hc hle hr]
        exact cellValue_eq_specCell _ _ _ sizeX sizeZ xs zs amps o1 volatility col row hx hz
      · rw [cellAt_filledGrid _ _ _ _ _ hc hle hr, ← specCell_shift]
        exact cellValue_eq_specCell _ _ _ sizeX sizeZ xs zs amps o2 volatility col row hx hz
    · intro col row h
      exact ⟨cellAt_filledGrid_outside _ _ _ _ _ h, cellAt_filledGrid_outside _ _ _ _ _ h⟩
  · rw [WaterDropGenerator_typeError _ _ _ sizeX sizeZ xs zs amps o1 volatility hZ (by omega)
      (by omega)] at h1
    cases h1

/-- C10 (amended), at a concrete input: the three drops of the example on the
`2 x 3` grid, offsets `47` and `50`; the cell `(1, 2)`. -/
theorem C10_offset_added_uniformly_witness :
    ∃ g1 g2 v,
      WaterDropGenerator Real.sqrt Real.cos Real.exp 2 3 [0.2, 0.5, 0.7] [0.6, 0.5, 0.3] [15, 50, 3]
          47 25 = Except.ok g1
        ∧ WaterDropGenerator Real.sqrt Real.cos Real.exp 2 3 [0.2, 0.5, 0.7] [0.6, 0.5, 0.3]
          [15, 50, 3] 50 25 = Except.ok g2
        ∧ cellAt g1 1 2 = num v ∧ cellAt g2 1 2 = num (v + (50 - 47)) := by
  have h1 := WaterDropGenerator_ok Real.sqrt Real.cos Real.exp 2 3 [0.2, 0.5, 0.7] [0.6, 0.5, 0.3]
    [15, 50, 3] 47 25 (by decide) (by decide) (by decide)
  obtain ⟨g2, h2, _, _, hcells, _⟩ := C10_offset_added_uniformly 2 3 [0.2, 0.5, 0.7]
    [0.6, 0.5, 0.3] [15, 50, 3] 25 47 50 _ (by decide) (by decide) rfl rfl h1
  obtain ⟨v, e1, e2⟩ := hcells 1 2 (by decide) (by decide)
  exact ⟨_, g2, v, h1, h2, e1, e2⟩

/-- C11. For `sizeX ≥ 1` and `sizeZ ≥ 1`, every pair `(col, x)` the inner loop
goes through has `col < sizeX` and `x` a number with `0 ≤ x < 1`, and every pair
`(row, z)` the outer loop goes through has `row < sizeZ` and `0 ≤ z < 1`: the
far edge `1` is never sampled, while the near edge `0` is (first column, first
row). -/
theorem C11_sample_points_in_unit_square (sizeX sizeZ : Int) (hX : 1 ≤ sizeX) (hZ : 1 ≤ sizeZ) :
    (colLoopArgs (num 1 / num (sizeX : ℝ)) sizeX.toNat 0 (num 0)).length = sizeX.toNat
      ∧ (rowLoopArgs (num 1 / num (sizeZ : ℝ)) sizeZ.toNat 0 (num 0)).length = sizeZ.toNat
      ∧ (∀ p ∈ colLoopArgs (num 1 / num (sizeX : ℝ)) sizeX.toNat 0 (num 0),
          p.1 < sizeX.toNat ∧ ∃ x : ℝ, p.2 = num x ∧ 0 ≤ x ∧ x < 1)
      ∧ (∀ q ∈ rowLoopArgs (num 1 / num (sizeZ : ℝ)) sizeZ.toNat 0 (num 0),
          q.1 < sizeZ.toNat ∧ ∃ z : ℝ, q.2 = num z ∧ 0 ≤ z ∧ z < 1)
      ∧ (0, num 0) ∈ colLoopArgs (num 1 / num (sizeX : ℝ)) sizeX.toNat 0 (num 0)
      ∧ (0, num 0) ∈ rowLoopArgs (num 1 / num (sizeZ : ℝ)) sizeZ.toNat 0 (num 0) := by
  obtain ⟨n, hn⟩ : ∃ n, sizeX.toNat = n + 1 := ⟨sizeX.toNat - 1, by omega⟩
  obtain ⟨m, hm⟩ : ∃ m, sizeZ.toNat = m + 1 := ⟨sizeZ.toNat - 1, by omega⟩
  refine ⟨?_, ?_, fun p hp => mem_colLoopArgs_unit sizeX p hp, fun q hq => ?_, ?_, ?_⟩
  · rw [colLoopArgs_closed_form]; simp
  · rw [rowLoopArgs_eq_colLoopArgs, colLoopArgs_closed_form]; simp
  · rw [rowLoopArgs_eq_colLoopArgs] at hq
    exact mem_colLoopArgs_unit sizeZ q hq
  · rw [hn]; exact List.mem_cons_self _ _
  · rw [hm]; exact List.mem_cons_self _ _

/-- C11, at a concrete input: the `3 x 2` sampling; three columns, two rows. -/
theorem C11_sample_points_in_unit_square_witness :
    (colLoopArgs (num 1 / num ((3 : Int) : ℝ)) (3 : Int).toNat 0 (num 0)).length = (3 : Int).toNat
      ∧ (rowLoopArgs (num 1 / num ((2 : Int) : ℝ)) (2 : Int).toNat 0 (num 0)).length = (2 : Int).toNat :=
  ⟨(C11_sample_points_in_unit_square 3 2 (by decide) (by decide)).1,
    (C11_sample_points_in_unit_square 3 2 (by decide) (by decide)).2.1⟩

/-- C12. Two invocations whose argument arrays are identical (whatever else
the two stores hold) have the same outcome: both raise the same exception or
both return the same grid, cell for cell; and an invocation that returns leaves
the three argument arrays of its store unchanged. -/
theorem C12_deterministic_and_pure (sizeX sizeZ : Int) (offsetLevel volatility : ℝ)
    (st st2 : Store ℝ) (hx : st2.xPositionsNormalized = st.xPositionsNormalized)
    (hz : st2.zPositionsNormalized = st.zPositionsNormalized)
    (ha : st2.amplitudes = st.amplitudes) :
    (WaterDropGeneratorStore Real.sqrt Real.cos Real.exp sizeX sizeZ offsetLevel volatility st2).map
          Store.result
        = (WaterDropGeneratorStore Real.sqrt Real.cos Real.exp sizeX sizeZ offsetLevel volatility
            st).map Store.result
      ∧ (∀ s1 s2,
          WaterDropGeneratorStore Real.sqrt Real.cos Real.exp sizeX sizeZ offsetLevel volatility st
            = Except.ok s1 →
          WaterDropGeneratorStore Real.sqrt Real.cos Real.exp sizeX sizeZ offsetLevel volatility st2
            = Except.ok s2 →
          s2.result = s1.result ∧ ∀ col row, cellAt s2.result col row = cellAt s1.result col row)
      ∧ (∀ s1,
          WaterDropGeneratorStore Real.sqrt Real.cos Real.exp sizeX sizeZ offsetLevel volatility st
            = Except.ok s1 →
          s1.xPositionsNormalized = st.xPositionsNormalized
            ∧ s1.zPositionsNormalized = st.zPositionsNormalized
            ∧ s1.amplitudes = st.amplitudes) := by
  rw [WaterDropGeneratorStore_eq, WaterDropGeneratorStore_eq, hx, hz, ha]
  cases WaterDropGenerator Real.sqrt Real.cos Real.exp sizeX sizeZ st.xPositionsNormalized
      st.zPositionsNormalized st.amplitudes offsetLevel volatility with
  | error e =>
    refine ⟨rfl, fun s1 s2 h1 _ => ?_, fun s1 h1 => ?_⟩ <;> cases h1
  | ok g =>
    refine ⟨rfl, fun s1 s2 h1 h2 => ?_, fun s1 h1 => ?_⟩
    · cases h1
      cases h2
      exact ⟨rfl, fun _ _ => rfl⟩
    · cases h1
      exact ⟨rfl, rfl, rfl⟩

/-- C12, at concrete stores: the scenario `(1, 1, [0], [0], [10], 0, 25)` run in
a fresh store and in a store that holds leftovers of an earlier call. -/
theorem C12_deterministic_and_pure_witness :
    (WaterDropGeneratorStore Real.sqrt Real.cos Real.exp 1 1 0 25
        { xPositionsNormalized := [0], zPositionsNormalized := [0], amplitudes := [10],
          oscillators := [{ amplitude := num 3, centerX := nan, centerZ := undefined,
                            gain := num 1, offsetY := num 0 }],
          result := [[num 1, undefined], []] }).map Store.result
      = (WaterDropGeneratorStore Real.sqrt Real.cos Real.exp 1 1 0 25
        { xPositionsNormalized := [0], zPositionsNormalized := [0], amplitudes := [10],
          oscillators := [], result := [] }).map Store.result :=
  (C12_deterministic_and_pure 1 1 0 25
    { xPositionsNormalized := [0], zPositionsNormalized := [0], amplitudes := [10],
      oscillators := [], result := [] }
    { xPositionsNormalized := [0], zPositionsNormalized := [0], amplitudes := [10],
      oscillators := [{ amplitude := num 3, centerX := nan, centerZ := undefined,
                        gain := num 1, offsetY := num 0 }],
      result := [[num 1, undefined], []] } rfl rfl rfl).1

/-- C13. For `col < sizeX` and `row < sizeZ`, the value of `x` obtained by
repeated addition of `stepX = 1 / sizeX` when the inner loop is at column `col`
is the closed form `col * (1 / sizeX)` of the spec (which is `col / sizeX`), and
the value of `z` when the outer loop is at row `row` is `row * (1 / sizeZ)`. -/
theorem C13_running_coordinates_closed_form (sizeX sizeZ : Int) (col row : Nat)
    (hc : (col : Int) < sizeX) (hr : (row : Int) < sizeZ) :
    (colLoopArgs (num 1 / num (sizeX : ℝ)) sizeX.toNat 0 (num 0))[col]?
        = some (col, num (specSampleX sizeX col))
      ∧ (rowLoopArgs (num 1 / num (sizeZ : ℝ)) sizeZ.toNat 0 (num 0))[row]?
        = some (row, num (specSampleZ sizeZ row))
      ∧ (specSampleX sizeX col : ℝ) = (col : ℝ) / (sizeX : ℝ)
      ∧ (specSampleZ sizeZ row : ℝ) = (row : ℝ) / (sizeZ : ℝ) := by
  have hc2 : col < sizeX.toNat := by omega
  have hr2 : row < sizeZ.toNat := by omega
  refine ⟨?_, ?_, mul_one_div _ _, mul_one_div _ _⟩
  · rw [colLoopArgs_closed_form, List.getElem?_map, List.getElem?_range hc2]
    rfl
  · rw [rowLoopArgs_eq_colLoopArgs, colLoopArgs_closed_form, List.getElem?_map,
      List.getElem?_range hr2]
    rfl

/-- C13, at a concrete input: column `3` and row `2` of the `4 x 4` sampling. -/
theorem C13_running_coordinates_closed_form_witness :
    (colLoopArgs (num 1 / num ((4 : Int) : ℝ)) (4 : Int).toNat 0 (num 0))[3]?
        = some (3, num (specSampleX 4 3))
      ∧ (rowLoopArgs (num 1 / num ((4 : Int) : ℝ)) (4 : Int).toNat 0 (num 0))[2]?
        = some (2, num (specSampleZ 4 2))
      ∧ (specSampleX 4 3 : ℝ) = ((3 : Nat) : ℝ) / ((4 : Int) : ℝ)
      ∧ (specSampleZ 4 2 : ℝ) = ((2 : Nat) : ℝ) / ((4 : Int) : ℝ) :=
  C13_running_coordinates_closed_form 4 4 3 2 (by decide) (by decide)

/-- C14 (counterexample). With `sizeX = 1`, `sizeZ = 2^32` (so `sizeX ≤ sizeZ`)
the call raises: `Array(sizeZ)` is a `RangeError`. -/
theorem C14_huge_height_raises :
    WaterDropGenerator Real.sqrt Real.cos Real.exp 1 4294967296 [] [] [] 0 0
      = Except.error JSError.rangeError :=
  WaterDropGenerator_rangeError _ _ _ 1 4294967296 _ _ _ _ _ (Or.inl (Or.inr (by decide)))

/-- C14 (amended). In every arithmetic (the number type, its operations and
`Math.sqrt`, `Math.cos`, `Math.exp` are arbitrary: exact reals as well as
binary64 doubles): for every `sizeX ≥ 1`, `sizeZ ≥ 1` and all source sequences
(of equal length or not), the call raises an exception if and only if
`sizeX > sizeZ` or `sizeZ ≥ 2^32`: a `RangeError` of the allocation when
`sizeZ ≥ 2^32` or `sizeX ≥ 2^32`, otherwise (for `sizeZ < sizeX < 2^32`) the
`TypeError` of the write `result[col][row]` on a missing outer entry; when
`sizeX ≤ sizeZ < 2^32` the call returns a grid. -/
theorem C14_raises_iff_wider [Add α] [Sub α] [Mul α] [Div α] [Neg α] [Zero α] [One α]
    [NatCast α] [IntCast α] (sqrt cos exp : α → α) (sizeX sizeZ : Int) (xs zs amps : List α)
    (offsetLevel volatility : α) (hX : 1 ≤ sizeX) (hZ : 1 ≤ sizeZ) :
    ((∃ e, WaterDropGenerator sqrt cos exp sizeX sizeZ xs zs amps offsetLevel volatility
          = Except.error e) ↔ (sizeZ < sizeX ∨ 4294967296 ≤ sizeZ))
      ∧ (4294967296 ≤ sizeZ ∨ 4294967296 ≤ sizeX →
          WaterDropGenerator sqrt cos exp sizeX sizeZ xs zs amps offsetLevel volatility
            = Except.error JSError.rangeError)
      ∧ (sizeZ < sizeX → sizeX < 4294967296 →
          WaterDropGenerator sqrt cos exp sizeX sizeZ xs zs amps offsetLevel volatility
            = Except.error JSError.typeError)
      ∧ (sizeX ≤ sizeZ → sizeZ < 4294967296 →
          ∃ g, WaterDropGenerator sqrt cos exp sizeX sizeZ xs zs amps offsetLevel volatility
            = Except.ok g) := by
  have hrange : 4294967296 ≤ sizeZ ∨ 4294967296 ≤ sizeX →
      WaterDropGenerator sqrt cos exp sizeX sizeZ xs zs amps offsetLevel volatility
        = Except.error JSError.rangeError :=
    fun h => WaterDropGenerator_rangeError sqrt cos exp sizeX sizeZ xs zs amps offsetLevel
      volatility (by omega)
  have htype : sizeZ < sizeX → sizeX < 4294967296 →
      WaterDropGenerator sqrt cos exp sizeX sizeZ xs zs amps offsetLevel volatility
        = Except.error JSError.typeError :=
    fun h h2 => WaterDropGenerator_typeError sqrt cos exp sizeX sizeZ xs zs amps offsetLevel
      volatility hZ h h2
  have hok : sizeX ≤ sizeZ → sizeZ < 4294967296 →
      ∃ g, WaterDropGenerator sqrt cos exp sizeX sizeZ xs zs amps offsetLevel volatility
        = Except.ok g :=
    fun h h2 => ⟨_, WaterDropGenerator_ok sqrt cos exp sizeX sizeZ xs zs amps offsetLevel
      volatility (by omega) h h2⟩
  refine ⟨⟨fun ⟨e, he⟩ => ?_, fun h => ?_⟩, hrange, htype, hok⟩
  · by_contra hno
    obtain ⟨g, hg⟩ := hok (by omega) (by omega)
    rw [hg] at he
    cases he
  · by_cases hbig : 4294967296 ≤ sizeZ ∨ 4294967296 ≤ sizeX
    · exact ⟨_, hrange hbig⟩
    · exact ⟨_, htype (by omega) (by omega)⟩

/-- C14 (amended), at concrete inputs: `sizeX = 3`, `sizeZ = 2` with the drops
of the example raises a `TypeError`, in exact real arithmetic and in binary64
arithmetic (with any `Math.sqrt`, `Math.cos`, `Math.exp`). -/
theorem C14_raises_iff_wider_witness :
    WaterDropGenerator Real.sqrt Real.cos Real.exp 3 2 [0.2, 0.5, 0.7] [0.6, 0.5, 0.3] [15, 50, 3]
        47 25 = Except.error JSError.typeError
      ∧ ∀ sqrt cos exp : Binary64 → Binary64,
          WaterDropGenerator sqrt cos exp 3 2 [0.2, 0.5, 0.7] [0.6, 0.5, 0.3] [15, 50, 3] 47 25
            = Except.error JSError.typeError :=
  ⟨(C14_raises_iff_wider Real.sqrt Real.cos Real.exp 3 2 [0.2, 0.5, 0.7] [0.6, 0.5, 0.3]
      [15, 50, 3] 47 25 (by decide) (by decide)).2.2.1 (by decide) (by decide),
    fun sqrt cos exp => (C14_raises_iff_wider sqrt cos exp 3 2 [0.2, 0.5, 0.7] [0.6, 0.5, 0.3]
      [15, 50, 3] 47 25 (by decide) (by decide)).2.2.1 (by decide) (by decide)⟩

/-- C15 (counterexample). With `sizeX = sizeZ = 2^32` and the three drops of
the example the call raises a `RangeError` (`Array(sizeZ)`): no grid. -/
theorem C15_huge_square_raises :
    WaterDropGenerator Real.sqrt Real.cos Real.exp 4294967296 4294967296
        [0.2, 0.5, 0.7] [0.6, 0.5, 0.3] [15, 50, 3] 47 25
      = Except.error JSError.rangeError :=
  WaterDropGenerator_rangeError _ _ _ 4294967296 4294967296 _ _ _ _ _
    (Or.inl (Or.inr (by decide)))

/-- C15 (amended). In every arithmetic (the number type, its operations and
`Math.sqrt`, `Math.cos`, `Math.exp` are arbitrary: exact reals as well as
binary64 doubles): for every `1 ≤ n < 2^32` and all source sequences (of equal
length or not), the call with `sizeX = sizeZ = n` returns, without raising, a
grid with exactly `n` outer entries, each of exactly `n` cells, every cell
defined (not `undefined`: it holds the value the fill loop computed, a number
or `NaN`). -/
theorem C15_square_grid [Add α] [Sub α] [Mul α] [Div α] [Neg α] [Zero α] [One α] [NatCast α]
    [IntCast α] (sqrt cos exp : α → α) (n : Int) (xs zs amps : List α) (offsetLevel volatility : α)
    (hn : 1 ≤ n) (hn2 : n < 4294967296) :
    ∃ g, WaterDropGenerator sqrt cos exp n n xs zs amps offsetLevel volatility = Except.ok g
      ∧ g.length = n.toNat
      ∧ ∀ col, col < n.toNat → ∃ inner, g[col]? = some inner ∧ inner.length = n.toNat
          ∧ ∀ row, row < n.toNat → ∃ v, inner[row]? = some v ∧ v ≠ undefined := by
  refine ⟨_, WaterDropGenerator_ok sqrt cos exp n n xs zs amps offsetLevel volatility (by omega)
    (le_refl n) hn2, filledGrid_length _ _ _, ?_⟩
  intro col hc
  refine ⟨_, filledGrid_square_entry _ _ col hc, by simp, ?_⟩
  intro row hr
  refine ⟨_, ?_, cellValue_ne_undefined sqrt cos exp (buildOscillators xs zs amps) (num volatility)
    (num offsetLevel) (num 1 / num (n : α)) (num 1 / num (n : α)) col row⟩
  rw [List.getElem?_map, List.getElem?_range hr, Option.map_some']

/-- C15 (amended), at the call of the example (lines 99-107): `n = 200`, three
drops, offset `47`, volatility `25`, in exact real arithmetic and in binary64
arithmetic (with any `Math.sqrt`, `Math.cos`, `Math.exp`); the grid is
`200 x 200`, as the heatmap series is declared (`rows = columns = 200`). -/
theorem C15_square_grid_witness :
    (∃ g, WaterDropGenerator Real.sqrt Real.cos Real.exp 200 200
          [0.2, 0.5, 0.7] [0.6, 0.5, 0.3] [15, 50, 3] 47 25 = Except.ok g
      ∧ g.length = (200 : Int).toNat
      ∧ ∀ col, col < (200 : Int).toNat → ∃ inner, g[col]? = some inner
          ∧ inner.length = (200 : Int).toNat
          ∧ ∀ row, row < (200 : Int).toNat → ∃ v, inner[row]? = some v ∧ v ≠ undefined)
      ∧ ∀ sqrt cos exp : Binary64 → Binary64,
          ∃ g, WaterDropGenerator sqrt cos exp 200 200
              [0.2, 0.5, 0.7] [0.6, 0.5, 0.3] [15, 50, 3] 47 25 = Except.ok g
            ∧ g.length = (200 : Int).toNat
            ∧ ∀ col, col < (200 : Int).toNat → ∃ inner, g[col]? = some inner
                ∧ inner.length = (200 : Int).toNat
                ∧ ∀ row, row < (200 : Int).toNat → ∃ v, inner[row]? = some v ∧ v ≠ undefined :=
  ⟨C15_square_grid Real.sqrt Real.cos Real.exp 200 [0.2, 0.5, 0.7] [0.6, 0.5, 0.3] [15, 50, 3]
      47 25 (by decide) (by decide),
    fun sqrt cos exp => C15_square_grid sqrt cos exp 200 [0.2, 0.5, 0.7] [0.6, 0.5, 0.3]
      [15, 50, 3] 47 25 (by decide) (by decide)⟩

/-- C16 (counterexample). In the binary64 arithmetic of the code (for every
`Math.sqrt`, `Math.cos`, `Math.exp` with `sqrt(0) = 0`, `cos(0) = 1`,
`exp(-0) = 1`) the call `(1, 1, [0], [0], [0.1], 0.2, 25)` returns
`[[0.30000000000000004]]`, and `0.30000000000000004 - 0.2 = 0.10000000000000003`
exceeds the amplitude `0.1`. Moreover a cell can be defined without holding a
number: with a position sequence shorter than `amplitudes` the call returns
`[[NaN]]`. -/
theorem C16_bound_exceeded_by_rounding :
    ((0.30000000000000004 : Binary64) - 0.2 = 0.10000000000000003
        ∧ Binary64.lt 0.1 (0.30000000000000004 - 0.2) = true)
      ∧ (∀ sqrt cos exp : Binary64 → Binary64, sqrt 0 = 0 → cos 0 = 1 → exp (-0) = 1 →
          WaterDropGenerator sqrt cos exp 1 1 [0] [0] [0.1] 0.2 25
            = Except.ok [[num 0.30000000000000004]])
      ∧ WaterDropGenerator Real.sqrt Real.cos Real.exp 1 1 [0] [0, 0] [1, 1] 47 25
          = Except.ok [[nan]] := by
  refine ⟨double_bound_exceeded, fun sqrt cos exp hsqrt hcos hexp => ?_, ?_⟩
  · rw [doubles_one_source_at_origin sqrt cos exp hsqrt hcos hexp, double_wave_tenth,
      double_tenth_plus_fifth]
  · rw [WaterDropGenerator_single_cell]
    have h := cellValue_nan_of_short_positions Real.sqrt Real.cos Real.exp [0] [0, 0] [1, 1]
      (num 25) (num 47) (num 0) (num 0) 0 0 (Or.inl (by decide))
    unfold cellValue at h
    exact congrArg (fun v => Except.ok [[v]]) h

/-- C16 (amended). In exact real arithmetic: for every input (any sizes, any
three sequences) on which the call returns a grid, every cell of that grid that
holds a number `v` satisfies `|v - offsetLevel| ≤ Σ |amplitudes[i]|`. -/
theorem C16_cells_within_amplitude_sum (sizeX sizeZ : Int) (xs zs amps : List ℝ)
    (offsetLevel volatility : ℝ) (g : Grid ℝ)
    (hg : WaterDropGenerator Real.sqrt Real.cos Real.exp sizeX sizeZ xs zs amps offsetLevel
      volatility = Except.ok g)
    (col row : Nat) (v : ℝ) (hv : cellAt g col row = num v) :
    |v - offsetLevel| ≤ (amps.map fun a => |a|).sum := by
  obtain ⟨_, _, hcell⟩ := returned_number_cell _ _ _ sizeX sizeZ xs zs amps offsetLevel volatility
    g hg col row v hv
  by_cases hshort : xs.length < amps.length ∨ zs.length < amps.length
  · rw [cellValue_nan_of_short_positions _ _ _ xs zs amps _ _ _ _ col row hshort] at hcell
    cases hcell
  · rw [← buildOscillators_take, cellValue_eq_specCell _ _ _ sizeX sizeZ _ _ amps offsetLevel
      volatility col row (by rw [List.length_take]; omega) (by rw [List.length_take]; omega)] at hcell
    simp only [num.injEq] at hcell
    rw [← hcell]
    exact abs_specCell_sub_le _ _ _ _ _ _ _ _ _

/-- C16 (amended), at the call of the example: amplitudes `[15, 50, 3]`, offset `47`; every
cell of the returned `200 x 200` grid that holds a number lies in `[-21, 115]`. -/
theorem C16_cells_within_amplitude_sum_witness :
    ∃ g, WaterDropGenerator Real.sqrt Real.cos Real.exp 200 200
          [0.2, 0.5, 0.7] [0.6, 0.5, 0.3] [15, 50, 3] 47 25 = Except.ok g
      ∧ ∀ col row v, cellAt g col row = num v → -21 ≤ v ∧ v ≤ 115 := by
  refine ⟨_, WaterDropGenerator_ok _ _ _ 200 200 _ _ _ 47 25 (by decide) (by decide) (by decide),
    ?_⟩
  intro col row v hv
  have h := C16_cells_within_amplitude_sum 200 200 [0.2, 0.5, 0.7] [0.6, 0.5, 0.3] [15, 50, 3]
    47 25 _ (WaterDropGenerator_ok _ _ _ 200 200 _ _ _ 47 25 (by decide) (by decide) (by decide))
    col row v hv
  have hs : (([15, 50, 3] : List ℝ).map fun a => |a|).sum = 68 := by
    simp only [List.map_cons, List.map_nil, List.sum_cons, List.sum_nil]
    norm_num [abs_of_pos]
  rw [hs] at h
  have := abs_le.mp h
  constructor <;> linarith [this.1, this.2]

/-- C17 (counterexample). In the binary64 arithmetic of the code (for every
`Math.sqrt`, `Math.cos`, `Math.exp` with `sqrt(0) = 0`, `cos(0) = 1`,
`exp(-0) = 1`), on the `1 x 1` grid with offset `1.1`: the two sources
`[(0, 0, 0.1)] ++ [(0, 0, 0.1)]` give the cell `1.3`, the first source alone
gives `1.2000000000000002`, the second alone with offset `0` gives `0.1`, and
`1.2000000000000002 + 0.1 = 1.3000000000000003` is not `1.3`. -/
theorem C17_superposition_rounded :
    ((1.2000000000000002 : Binary64) + 0.1 = 1.3000000000000003
        ∧ (1.2000000000000002 : Binary64) + 0.1 ≠ 1.3)
      ∧ ∀ sqrt cos exp : Binary64 → Binary64, sqrt 0 = 0 → cos 0 = 1 → exp (-0) = 1 →
          WaterDropGenerator sqrt cos exp 1 1 ([0] ++ [0]) ([0] ++ [0]) ([0.1] ++ [0.1]) 1.1 25
              = Except.ok [[num 1.3]]
            ∧ WaterDropGenerator sqrt cos exp 1 1 [0] [0] [0.1] 1.1 25
              = Except.ok [[num 1.2000000000000002]]
            ∧ WaterDropGenerator sqrt cos exp 1 1 [0] [0] [0.1] 0 25 = Except.ok [[num 0.1]] := by
  refine ⟨double_parts_sum, fun sqrt cos exp hsqrt hcos hexp => ⟨?_, ?_, ?_⟩⟩
  · rw [doubles_two_sources_at_origin sqrt cos exp hsqrt hcos hexp, double_wave_two_tenths,
      double_fifth_plus_eleven_tenths]
  · rw [doubles_one_source_at_origin sqrt cos exp hsqrt hcos hexp, double_wave_tenth,
      double_tenth_plus_eleven_tenths]
  · rw [doubles_one_source_at_origin sqrt cos exp hsqrt hcos hexp, double_wave_tenth,
      double_tenth_plus_zero]

/-- C17 (amended). In exact real arithmetic: for `1 ≤ sizeX ≤ sizeZ < 2^32`,
every volatility and offset, and two source lists `S1`, `S2` (each three
sequences of equal length), the calls for `S1 ++ S2` with the offset, for `S1`
with the offset and for `S2` with offset `0` all return grids; every cell
`(col, row)` with `col < sizeX`, `row < sizeZ` holds a number in each, and the
number for `S1 ++ S2` is the sum of the other two; every other position is a
hole in all three grids. -/
theorem C17_sources_superpose (sizeX sizeZ : Int) (x1 z1 a1 x2 z2 a2 : List ℝ)
    (offsetLevel volatility : ℝ) (hX : 1 ≤ sizeX) (hXZ : sizeX ≤ sizeZ) (hZ2 : sizeZ < 4294967296)
    (hx1 : x1.length = a1.length) (hz1 : z1.length = a1.length)
    (hx2 : x2.length = a2.length) (hz2 : z2.length = a2.length) :
    ∃ g g1 g2,
      WaterDropGenerator Real.sqrt Real.cos Real.exp sizeX sizeZ (x1 ++ x2) (z1 ++ z2) (a1 ++ a2)
          offsetLevel volatility = Except.ok g
        ∧ WaterDropGenerator Real.sqrt Real.cos Real.exp sizeX sizeZ x1 z1 a1 offsetLevel volatility
          = Except.ok g1
        ∧ WaterDropGenerator Real.sqrt Real.cos Real.exp sizeX sizeZ x2 z2 a2 0 volatility
          = Except.ok g2
        ∧ (∀ col row, col < sizeX.toNat → row < sizeZ.toNat →
            ∃ v1 v2, cellAt g1 col row = num v1 ∧ cellAt g2 col row = num v2
              ∧ cellAt g col row = num (v1 + v2))
        ∧ (∀ col row, ¬ (col < sizeX.toNat ∧ row < sizeZ.toNat) →
            cellAt g col row = undefined ∧ cellAt g1 col row = undefined
              ∧ cellAt g2 col row = undefined) := by
  have h0 : 0 ≤ sizeX := by omega
  have hle : sizeX.toNat ≤ sizeZ.toNat := Int.toNat_le_toNat hXZ
  refine ⟨_, _, _, WaterDropGenerator_ok _ _ _ sizeX sizeZ _ _ _ offsetLevel volatility h0 hXZ hZ2,
    WaterDropGenerator_ok _ _ _ sizeX sizeZ _ _ _ offsetLevel volatility h0 hXZ hZ2,
    WaterDropGenerator_ok _ _ _ sizeX sizeZ _ _ _ 0 volatility h0 hXZ hZ2, ?_, ?_⟩
  · intro col row hc hr
    refine ⟨specCell Real.sqrt Real.cos Real.exp sizeX sizeZ x1 z1 a1 offsetLevel volatility col row,
      specCell Real.sqrt Real.cos Real.exp sizeX sizeZ x2 z2 a2 0 volatility col row, ?_, ?_, ?_⟩
    · rw [cellAt_filledGrid _ _ _ _ _ hc hle hr]
      exact cellValue_eq_specCell _ _ _ sizeX sizeZ x1 z1 a1 offsetLevel volatility col row hx1 hz1
    · rw [cellAt_filledGrid _ _ _ _ _ hc hle hr]
      exact cellValue_eq_specCell _ _ _ sizeX sizeZ x2 z2 a2 0 volatility col row hx2 hz2
    · rw [cellAt_filledGrid _ _ _ _ _ hc hle hr, ← specCell_append _ _ _ _ _ _ _ _ _ _ _ _ hx1 hz1]
      exact cellValue_eq_specCell _ _ _ sizeX sizeZ _ _ _ offsetLevel volatility col row
        (by rw [List.length_append, List.length_append, hx1, hx2])
        (by rw [List.length_append, List.length_append, hz1, hz2])
  · intro col row h
    exact ⟨cellAt_filledGrid_outside _ _ _ _ _ h, cellAt_filledGrid_outside _ _ _ _ _ h,
      cellAt_filledGrid_outside _ _ _ _ _ h⟩

/-- C17 (amended), at a concrete input: the drops of the example split as
`[(0.2, 0.6, 15)]` and `[(0.5, 0.5, 50), (0.7, 0.3, 3)]` on the `2 x 3` grid;
the cell `(1, 2)` of the whole is the sum of the two parts. -/
theorem C17_sources_superpose_witness :
    ∃ g g1 g2 v1 v2,
      WaterDropGenerator Real.sqrt Real.cos Real.exp 2 3 ([0.2] ++ [0.5, 0.7]) ([0.6] ++ [0.5, 0.3])
          ([15] ++ [50, 3]) 47 25 = Except.ok g
        ∧ WaterDropGenerator Real.sqrt Real.cos Real.exp 2 3 [0.2] [0.6] [15] 47 25 = Except.ok g1
        ∧ WaterDropGenerator Real.sqrt Real.cos Real.exp 2 3 [0.5, 0.7] [0.5, 0.3] [50, 3] 0 25
          = Except.ok g2
        ∧ cellAt g1 1 2 = num v1 ∧ cellAt g2 1 2 = num v2 ∧ cellAt g 1 2 = num (v1 + v2) := by
  obtain ⟨g, g1, g2, h, h1, h2, hcells, _⟩ := C17_sources_superpose 2 3 [0.2] [0.6] [15]
    [0.5, 0.7] [0.5, 0.3] [50, 3] 47 25 (by decide) (by decide) (by decide) rfl rfl rfl rfl
  obtain ⟨v1, v2, e1, e2, e⟩ := hcells 1 2 (by decide) (by decide)
  exact ⟨g, g1, g2, v1, v2, h, h1, h2, e1, e2, e⟩

end HeatmapGrid
